import Mathlib

/-
Verification of the financial-product recommendation core of the
repository: product normalization, heuristic scoring, per-category
ranking, and the cross-category merge performed by the product manager.

Embedding conventions, used throughout:
 - Python floats are embedded as rationals; every constant the scoring
   pipeline works with is an exact decimal, so rational arithmetic agrees
   with the float arithmetic on all comparisons the theorems make.
 - A raw product record (Python dict of str to Any) is an association
   list over a small value universe `Val` covering the value shapes the
   pipeline handles: strings, numbers, lists of strings, and null.
 - Python exceptions are embedded as `Except PyErr`; code that cannot
   raise is embedded as a plain function.
 - Regular-expression extraction is embedded by hand-written matchers
   implementing exactly the concrete patterns of the source, with
   re.findall's left-to-right non-overlapping scanning.
-/

/-- Exceptions the Python pipeline can raise while handling a record. -/
inductive PyErr where
  | valueErr
  | typeErr
  | attrErr
  | keyErr
  deriving DecidableEq, Repr

/-- Single-quote character, kept out of string literals. -/
def quoteCh : Char := Char.ofNat 39

/-- Python str.lower, ASCII (all text constants in the source are ASCII). -/
def pyLower (s : String) : String := String.mk (s.data.map Char.toLower)

/-- Whether `pat` occurs at the head of `l`. -/
def listStarts : List Char → List Char → Bool
  | [], _ => true
  | _ :: _, [] => false
  | a :: pat, b :: l => a == b && listStarts pat l

/-- Whether `pat` occurs anywhere inside `l`; Python's substring test. -/
def listHas (pat : List Char) : List Char → Bool
  | [] => listStarts pat []
  | b :: l => listStarts pat (b :: l) || listHas pat l

/-- Python's `needle in hay` on strings. -/
def pyIn (needle hay : String) : Bool := listHas needle.data hay.data

/-- Python str.isspace characters relevant here (space, tab, newline,
carriage return, vertical tab, form feed). -/
def pySpace (c : Char) : Bool :=
  c == ' ' || c == '\t' || c == '\n' || c == '\r' ||
  c == Char.ofNat 11 || c == Char.ofNat 12

/-- Drop leading whitespace characters. -/
def dropLeadWs : List Char → List Char
  | [] => []
  | c :: rest => if pySpace c then dropLeadWs rest else c :: rest

/-- Python str.strip(). -/
def pyStrip (s : String) : String :=
  String.mk ((dropLeadWs (dropLeadWs s.data).reverse).reverse)

/-- Accumulator-based worker for whitespace splitting. -/
def splitWsAux : List Char → List Char → List String
  | [], acc => if acc.isEmpty then [] else [String.mk acc.reverse]
  | c :: rest, acc =>
    if pySpace c then
      if acc.isEmpty then splitWsAux rest []
      else String.mk acc.reverse :: splitWsAux rest []
    else splitWsAux rest (c :: acc)

/-- Python str.split() with no argument: split on whitespace runs,
dropping empty pieces. -/
def pySplitWs (s : String) : List String := splitWsAux s.data []

/-- Worker for single-character splitting. -/
def splitChAux (sep : Char) : List Char → List Char → List String
  | [], acc => [String.mk acc.reverse]
  | c :: rest, acc =>
    if c == sep then String.mk acc.reverse :: splitChAux sep rest []
    else splitChAux sep rest (c :: acc)

/-- Python str.split(sep) for a one-character separator (keeps empties). -/
def pySplitCh (s : String) (sep : Char) : List String := splitChAux sep s.data []

/-- Python str.replace(c, two-character-free removal): remove every
occurrence of one character (the source only replaces by the empty
string). -/
def pyRemoveChar (s : String) (c : Char) : String :=
  String.mk (s.data.filter (fun d => d != c))

/-- Python sep.join(parts). -/
def joinWith (sep : String) : List String → String
  | [] => ""
  | [x] => x
  | x :: xs => x ++ sep ++ joinWith sep xs

/-- Python string slice s[:n]. -/
def pyTakeStr (s : String) (n : ℕ) : String := String.mk (s.data.take n)

/-- Lexicographic strict order on character lists, Python's str less-than. -/
def lexLt : List Char → List Char → Bool
  | [], [] => false
  | [], _ :: _ => true
  | _ :: _, [] => false
  | a :: as, b :: bs => a < b || (a == b && lexLt as bs)

/-- Python max over a list of strings (first maximal element wins). -/
def pyMaxStr : List String → Option String
  | [] => none
  | x :: xs => some (xs.foldl (fun m y => if lexLt m.data y.data then y else m) x)

/-- Python max over a list of rationals. -/
def maxRat : List ℚ → Option ℚ
  | [] => none
  | x :: xs => some (xs.foldl (fun m y => if m < y then y else m) x)

/-- Decimal digit test. -/
def isDigit (c : Char) : Bool := '0' ≤ c && c ≤ '9'

/-- Horner accumulation of decimal digits. -/
def digitsToNat : List Char → ℕ → ℕ
  | [], acc => acc
  | c :: rest, acc => digitsToNat rest (acc * 10 + (c.toNat - 48))

/-- Greedy run of decimal digits: digits consumed and the remainder. -/
def takeDigits : List Char → List Char × List Char
  | [] => ([], [])
  | c :: rest =>
    if isDigit c then
      let (ds, r) := takeDigits rest
      (c :: ds, r)
    else ([], c :: rest)

/-- Python int(s) on a string: strip whitespace, optional sign, then a
nonempty run of decimal digits; none where Python raises ValueError.
(Digit-group underscores, not occurring in this data, are not modelled.) -/
def pyIntOfStr (s : String) : Option ℤ :=
  let core : List Char → Option ℤ := fun l =>
    if l.isEmpty then none
    else if l.all isDigit then some (digitsToNat l 0 : ℤ) else none
  match (pyStrip s).data with
  | '+' :: rest => core rest
  | '-' :: rest => (core rest).map (fun n => -n)
  | rest => core rest

/-- Value of an integer-part and fraction-part digit pair. -/
def mkDec (ip fp : List Char) : ℚ :=
  (digitsToNat ip 0 : ℚ) + (digitsToNat fp 0 : ℚ) / ((10 : ℚ) ^ fp.length)

/-- Optional exponent suffix of a Python float literal; requires the
rest of the input to be consumed. -/
def parseExpPart : List Char → ℚ → Option ℚ
  | [], q => some q
  | c :: rest, q =>
    if c == 'e' || c == 'E' then
      let finish : List Char → ℤ → Option ℚ := fun l sign =>
        let (ds, r) := takeDigits l
        if ds.isEmpty || !r.isEmpty then none
        else some (q * (10 : ℚ) ^ (sign * (digitsToNat ds 0 : ℤ)))
      match rest with
      | '+' :: r2 => finish r2 1
      | '-' :: r2 => finish r2 (-1)
      | r2 => finish r2 1
    else none

/-- Unsigned body of a Python float literal: digits with optional
fraction, or fraction alone, with optional exponent. -/
def parseUnsignedFloat (l : List Char) : Option ℚ :=
  let (ip, r1) := takeDigits l
  match r1 with
  | '.' :: r2 =>
    let (fp, r3) := takeDigits r2
    if ip.isEmpty && fp.isEmpty then none
    else parseExpPart r3 (mkDec ip fp)
  | r =>
    if ip.isEmpty then none
    else parseExpPart r (digitsToNat ip 0 : ℚ)

/-- Python float(s) on a string: strip, optional sign, numeric body;
none where Python raises ValueError.  (The inf/nan spellings, not
occurring in this data, are not modelled.) -/
def pyFloatOfStr (s : String) : Option ℚ :=
  match (pyStrip s).data with
  | '+' :: rest => parseUnsignedFloat rest
  | '-' :: rest => (parseUnsignedFloat rest).map (fun q => -q)
  | rest => parseUnsignedFloat rest

/-- Left-pad a digit string with zeros to width k. -/
def padZeros (s : String) (k : ℕ) : String :=
  String.mk (List.replicate (k - s.length) '0') ++ s

/-- Render a rational the way Python str() renders the corresponding
float, for the exact-decimal values this pipeline produces (an integral
value renders with a trailing .0, a terminating fraction with its
shortest expansion).  Display only; no theorem depends on this output. -/
def ratRepr (q : ℚ) : String :=
  let sign := if q < 0 then "-" else ""
  let a := |q|
  match (List.range 31).find? (fun k => (a * (10 : ℚ) ^ k).den == 1) with
  | some 0 => sign ++ toString a.num.toNat ++ ".0"
  | some k =>
      let scaled := (a * (10 : ℚ) ^ k).num.toNat
      sign ++ toString (scaled / 10 ^ k) ++ "." ++
        padZeros (toString (scaled % 10 ^ k)) k
  | none => sign ++ toString a.num ++ "/" ++ toString a.den

/-- Python format(x, one decimal place): round half to even at the first
decimal.  Display only; used for the reasoning strings. -/
def formatOneDec (q : ℚ) : String :=
  let sign := if q < 0 then "-" else ""
  let a := |q| * 10
  let fl := (⌊a⌋).toNat
  let frac := a - (fl : ℚ)
  let r :=
    if (1 : ℚ) / 2 < frac then fl + 1
    else if frac < (1 : ℚ) / 2 then fl
    else if fl % 2 == 0 then fl else fl + 1
  sign ++ toString (r / 10) ++ "." ++ toString (r % 10)

/-- Universe of raw-record field values handled by the pipeline:
strings, numbers (Python ints and floats merged into rationals), lists
of strings, and null. -/
inductive Val where
  | vs (s : String)
  | vn (q : ℚ)
  | vl (l : List String)
  | vnull
  deriving DecidableEq, Repr

/-- Python truthiness on the value universe. -/
def Val.truthy : Val → Bool
  | .vs s => !s.isEmpty
  | .vn q => q != 0
  | .vl l => !l.isEmpty
  | .vnull => false

/-- A raw product record: an association list from field names to values
(Python dict of str to Any, restricted to the handled value universe). -/
def RawRecord := List (String × Val)

/-- Lookup of a key, none when absent. -/
def RawRecord.find (r : RawRecord) (k : String) : Option Val :=
  (List.find? (fun p => p.1 == k) r).map (fun p => p.2)

/-- Python dict.get(k, d). -/
def RawRecord.getD (r : RawRecord) (k : String) (d : Val) : Val :=
  (r.find k).getD d

/-- Python dict.get(k), defaulting to None. -/
def RawRecord.get (r : RawRecord) (k : String) : Val := r.getD k .vnull

/-- Python `k in dict`. -/
def RawRecord.has (r : RawRecord) (k : String) : Bool := (r.find k).isSome

/-- Python float(v) where the caller catches ValueError and TypeError:
numbers pass through, strings parse, everything else is none. -/
def pyFloatOfVal : Val → Option ℚ
  | .vn q => some q
  | .vs s => pyFloatOfStr s
  | _ => none

/-- Python int(v): numbers truncate toward zero, strings must be integer
literals (ValueError otherwise), other values raise TypeError. -/
def pyIntOfVal : Val → Except PyErr ℤ
  | .vn q => .ok (q.num / (q.den : ℤ))
  | .vs s =>
    match pyIntOfStr s with
    | some n => .ok n
    | none => .error .valueErr
  | .vl _ => .error .typeErr
  | .vnull => .error .typeErr

/-- Python str(v) on the value universe.  Numbers render in float form
(the embedding merges ints and floats); display only. -/
def Val.str : Val → String
  | .vs s => s
  | .vn q => ratRepr q
  | .vl l =>
      "[" ++ joinWith ", " (l.map (fun s => String.singleton quoteCh ++ s ++ String.singleton quoteCh)) ++ "]"
  | .vnull => "None"

/-- The closed category enumeration of base_product.py. -/
inductive ProductCategory where
  | credit_cards
  | fixed_deposits
  | mutual_funds
  | insurance
  | loans
  deriving DecidableEq, Repr

/-- Python list(ProductCategory), in declaration order. -/
def ProductCategory.all : List ProductCategory :=
  [.credit_cards, .fixed_deposits, .mutual_funds, .insurance, .loans]

/-- CreditCardInfo of credit_card_processor.py: the ProductInfo fields
plus the credit-card attributes. -/
structure CreditCardInfo where
  id : String
  name : String
  description : String
  category : ProductCategory
  features : List String
  bank : String
  annual_fee : Option ℚ := none
  cashback_rate : Option ℚ := none
  reward_rate : Option ℚ := none
  welcome_benefit : Option String := none
  fuel_surcharge_waiver : Bool := false
  lounge_access : Bool := false
  deriving DecidableEq, Repr

/-- FixedDepositInfo of fixed_deposit_processor.py. -/
structure FixedDepositInfo where
  id : String
  name : String
  description : String
  category : ProductCategory
  features : List String
  bank_name : String
  interest_rate_min : Option ℚ := none
  interest_rate_max : Option ℚ := none
  tenure_from_days : Option ℤ := none
  tenure_to_days : Option ℤ := none
  senior_citizen_rate : Option ℚ := none
  deriving DecidableEq, Repr

/-- MutualFundInfo of mutual_fund_processor.py.  The amc, fund_manager,
inception_date and sector_allocation fields are stored raw and never
consumed by scoring or ranking, so they keep type Val; expense_rate
embeds the source field expense_ratio (renamed only). -/
structure MutualFundInfo where
  id : String
  name : String
  description : String
  category : ProductCategory
  features : List String
  amc : Val
  risk_level : String
  rating : ℤ
  returns_1y : Option ℚ := none
  returns_3y : Option ℚ := none
  returns_5y : Option ℚ := none
  nav : Option ℚ := none
  aum : Option ℚ := none
  expense_rate : Option ℚ := none
  min_investment : Option ℚ := none
  fund_manager : Val := .vnull
  inception_date : Val := .vnull
  holdings : List String := []
  sector_allocation : Val := .vl []
  deriving DecidableEq, Repr

/-- A processed product of any category (the ProductInfo hierarchy). -/
inductive Product where
  | cc (p : CreditCardInfo)
  | fd (p : FixedDepositInfo)
  | mf (p : MutualFundInfo)
  deriving DecidableEq, Repr

/-- The shared name attribute. -/
def Product.name : Product → String
  | .cc p => p.name
  | .fd p => p.name
  | .mf p => p.name

/-- The shared features attribute. -/
def Product.features : Product → List String
  | .cc p => p.features
  | .fd p => p.features
  | .mf p => p.features

/-- The shared category attribute. -/
def Product.category : Product → ProductCategory
  | .cc p => p.category
  | .fd p => p.category
  | .mf p => p.category

/-- ScoredProduct of base_product.py. -/
structure ScoredProduct where
  product : Product
  score : ℚ
  reasoning : String
  deriving DecidableEq, Repr

/-- The user-preference mapping, embedded as the typed record of exactly
the keys the pipeline reads (an absent key is none / the default used by
the corresponding dict.get in the source). -/
structure Preferences where
  risk_tolerance : Option String := none
  max_annual_fee : Option ℚ := none
  income_range : Option String := none
  spending_categories : List String := []
  investment_tenure : Option String := none
  investment_amount : Option ℚ := none
  is_senior_citizen : Bool := false
  investment_goal : Option String := none
  investment_horizon : Option String := none
  investment_type : Option String := none
  credit_cards_source : Option String := none
  fixed_deposits_source : Option String := none
  mutual_funds_source : Option String := none
  insurance_source : Option String := none
  loans_source : Option String := none
  deriving DecidableEq, Repr

/-- Python truthiness of an optional number (None and 0 are falsy). -/
def truthyQ : Option ℚ → Bool
  | none => false
  | some q => q != 0

/-- Python truthiness of an optional integer. -/
def truthyZ : Option ℤ → Bool
  | none => false
  | some n => n != 0

/-- Python truthiness of an optional string (None and the empty string
are falsy). -/
def truthyS : Option String → Bool
  | none => false
  | some s => !s.isEmpty

/-- Stand-in for Python's run-salted string hash, used only inside
generated product ids; the ids are opaque tokens nothing inspects. -/
def pyHash (s : String) : ℤ := (s.length : ℤ)

/-- Matcher for a literal pattern piece. -/
def matchLit (pat : List Char) (l : List Char) : Option (List Char) :=
  if listStarts pat l then some (l.drop pat.length) else none

/-- Matcher for one-or-more whitespace characters. -/
def matchOneWs : List Char → Option (List Char)
  | c :: rest => if pySpace c then some (dropLeadWs rest) else none
  | [] => none

/-- Matcher for a regex number with optional fraction, greedy. -/
def matchNum (l : List Char) : Option (List Char × List Char) :=
  let (ds, r) := takeDigits l
  if ds.isEmpty then none
  else
    match r with
    | '.' :: r2 =>
      let (fs, r3) := takeDigits r2
      if fs.isEmpty then some (ds, '.' :: r2)
      else some (ds ++ '.' :: fs, r3)
    | _ => some (ds, r)

/-- Fuel-bounded re.findall scan: try the matcher at each position left
to right, skipping past each (non-overlapping) match.  Every matcher
used consumes at least one character, and the fuel is the input length
plus one, so the fuel never runs out. -/
def scanAllAux (m : List Char → Option (List Char × List Char)) :
    ℕ → List Char → List String
  | 0, _ => []
  | fuel + 1, l =>
    match m l with
    | some (c, rest) => String.mk c :: scanAllAux m fuel rest
    | none =>
      match l with
      | [] => []
      | _ :: t => scanAllAux m fuel t

/-- re.findall with a one-capture matcher. -/
def scanAll (m : List Char → Option (List Char × List Char)) (s : String) :
    List String :=
  scanAllAux m (s.data.length + 1) s.data

/-- Matcher for the pattern: number, optional spaces, percent sign,
optional spaces, the word cashback. -/
def matchPctCashback (l : List Char) : Option (List Char × List Char) := do
  let (num, r1) ← matchNum l
  let r2 := dropLeadWs r1
  let r3 ← matchLit ['%'] r2
  let r4 := dropLeadWs r3
  let r5 ← matchLit "cashback".data r4
  pure (num, r5)

/-- Matcher for the pattern: the word earn, spaces, number, optional
spaces, percent sign. -/
def matchEarnPct (l : List Char) : Option (List Char × List Char) := do
  let r1 ← matchLit "earn".data l
  let r2 ← matchOneWs r1
  let (num, r3) ← matchNum r2
  let r4 := dropLeadWs r3
  let r5 ← matchLit ['%'] r4
  pure (num, r5)

/-- Matcher for the pattern: number, optional spaces, the word percent,
spaces, the word cashback. -/
def matchPercentCashback (l : List Char) : Option (List Char × List Char) := do
  let (num, r1) ← matchNum l
  let r2 := dropLeadWs r1
  let r3 ← matchLit "percent".data r2
  let r4 ← matchOneWs r3
  let r5 ← matchLit "cashback".data r4
  pure (num, r5)

/-- Drop a greedy run of colons and whitespace (the fee patterns). -/
def dropColonWs : List Char → List Char
  | [] => []
  | c :: rest => if c == ':' || pySpace c then dropColonWs rest else c :: rest

/-- Matcher for: annual fee, colon/space run, optional rupee sign,
spaces, integer capture. -/
def matchFeeP1 (l : List Char) : Option (List Char × List Char) := do
  let r1 ← matchLit "annual fee".data l
  let r2 := dropColonWs r1
  let r3 := ((matchLit ['₹'] r2).getD r2)
  let r4 := dropLeadWs r3
  let (ds, r5) := takeDigits r4
  if ds.isEmpty then none else pure (ds, r5)

/-- Matcher for: rupee sign, spaces, integer capture, spaces, annual fee. -/
def matchFeeP2 (l : List Char) : Option (List Char × List Char) := do
  let r1 ← matchLit ['₹'] l
  let r2 := dropLeadWs r1
  let (ds, r3) := takeDigits r2
  if ds.isEmpty then none
  else do
    let r4 := dropLeadWs r3
    let r5 ← matchLit "annual fee".data r4
    pure (ds, r5)

/-- Matcher for: joining fee, colon/space run, optional rupee sign,
spaces, integer capture. -/
def matchFeeP3 (l : List Char) : Option (List Char × List Char) := do
  let r1 ← matchLit "joining fee".data l
  let r2 := dropColonWs r1
  let r3 := ((matchLit ['₹'] r2).getD r2)
  let r4 := dropLeadWs r3
  let (ds, r5) := takeDigits r4
  if ds.isEmpty then none else pure (ds, r5)

/-- The name field of a raw record: Python calls .strip() on the value,
raising AttributeError for a present non-string. -/
def rawNameStr (raw : RawRecord) : Except PyErr String :=
  match raw.getD "name" (.vs "") with
  | .vs s => .ok (pyStrip s)
  | _ => .error .attrErr

/-- The bank field of a credit-card record (bank, else issuer, else the
default).  Python stores the raw value, and calculate_score calls
.lower() on it unconditionally inside the same per-record try block, so
the embedding surfaces a non-string bank here; the surviving records are
the same. -/
def ccBankStr (raw : RawRecord) : Except PyErr String :=
  match raw.getD "bank" (raw.getD "issuer" (.vs "Unknown Bank")) with
  | .vs s => .ok s
  | _ => .error .attrErr

/-- The description field as the string the credit-card helpers consume.
A present non-string value makes Python's process_product raise: a
truthy one at the first lower() call in _extract_features, a falsy one
at the unconditional string concatenation in
_has_fuel_surcharge_waiver. -/
def ccDescStr (raw : RawRecord) : Except PyErr String :=
  match raw.getD "description" (.vs "") with
  | .vs d => .ok d
  | _ => .error .typeErr

/-- The features field as the list of strings Python iterates: an
explicit list passes through, a string contributes its characters one by
one (list.extend and str.join iterate a string character-wise), and a
present number or null raises at the unconditional join in the keyword
helpers. -/
def ccFeaturesList (raw : RawRecord) : Except PyErr (List String) :=
  match raw.find "features" with
  | none => .ok []
  | some (.vl l) => .ok l
  | some (.vs s) => .ok (s.data.map String.singleton)
  | some _ => .error .typeErr

/-- CreditCardProcessor._extract_features: the record's explicit
features followed by description-derived ones, first ten kept. -/
def CreditCardProcessor.extract_features (feats : List String) (desc : String) :
    List String :=
  let fromDesc :=
    if desc.isEmpty then []
    else
      let dl := pyLower desc
      let cb :=
        match pyMaxStr (scanAll matchPctCashback dl) with
        | some m => ["Up to " ++ m ++ "% cashback"]
        | none => []
      cb ++ (if pyIn "fuel surcharge" dl then ["Fuel surcharge waiver"] else []) ++
        (if pyIn "lounge" dl then ["Airport lounge access"] else []) ++
        (if pyIn "welcome" dl then ["Welcome benefits"] else [])
  (feats ++ fromDesc).take 10

/-- First capture of a fee pattern found in the lowered description, as
a number (the captured digits always parse, matching Python's float on
the findall result). -/
def feeFromDesc (desc : String) : Option ℚ :=
  if desc.isEmpty then none
  else
    let dl := pyLower desc
    let tryPat := fun m =>
      match scanAll m dl with
      | c :: _ => pyFloatOfStr c
      | [] => none
    (tryPat matchFeeP1).orElse
      (fun _ => (tryPat matchFeeP2).orElse (fun _ => tryPat matchFeeP3))

/-- CreditCardProcessor._extract_annual_fee: the explicit annual_fee
field when convertible, else the first fee-pattern match in the
description. -/
def CreditCardProcessor.extract_annual_fee (raw : RawRecord) (desc : String) :
    Option ℚ :=
  match raw.find "annual_fee" with
  | some v =>
    match pyFloatOfVal v with
    | some q => some q
    | none => feeFromDesc desc
  | none => feeFromDesc desc

/-- CreditCardProcessor._extract_cashback_rate: the maximum rate among
all matches of the three cashback patterns in the lowered description. -/
def CreditCardProcessor.extract_cashback_rate (desc : String) : Option ℚ :=
  if desc.isEmpty then none
  else
    let dl := pyLower desc
    let caps := scanAll matchPctCashback dl ++ scanAll matchEarnPct dl ++
      scanAll matchPercentCashback dl
    maxRat (caps.filterMap pyFloatOfStr)

/-- CreditCardProcessor._extract_welcome_benefit: the first line of the
description mentioning welcome, stripped, first hundred characters. -/
def CreditCardProcessor.extract_welcome_benefit (desc : String) : Option String :=
  if !desc.isEmpty && pyIn "welcome" (pyLower desc) then
    ((pySplitCh desc '\n').find? (fun line => pyIn "welcome" (pyLower line))).map
      (fun line => pyTakeStr (pyStrip line) 100)
  else none

/-- CreditCardProcessor._has_fuel_surcharge_waiver. -/
def CreditCardProcessor.has_fuel_surcharge_waiver (desc : String)
    (feats : List String) : Bool :=
  let text := pyLower (desc ++ " " ++ joinWith " " feats)
  pyIn "fuel surcharge" text || pyIn "fuel waiver" text

/-- CreditCardProcessor._has_lounge_access. -/
def CreditCardProcessor.has_lounge_access (desc : String)
    (feats : List String) : Bool :=
  let text := pyLower (desc ++ " " ++ joinWith " " feats)
  pyIn "lounge" text || pyIn "airport access" text

/-- CreditCardProcessor.process_product. -/
def CreditCardProcessor.process_product (raw : RawRecord) :
    Except PyErr CreditCardInfo := do
  let name ← rawNameStr raw
  let bank ← ccBankStr raw
  let desc ← ccDescStr raw
  let feats ← ccFeaturesList raw
  .ok {
    id := "cc_" ++ toString (pyHash name)
    name := name
    description := desc
    category := .credit_cards
    features := CreditCardProcessor.extract_features feats desc
    bank := bank
    annual_fee := CreditCardProcessor.extract_annual_fee raw desc
    cashback_rate := CreditCardProcessor.extract_cashback_rate desc
    reward_rate := none
    welcome_benefit := CreditCardProcessor.extract_welcome_benefit desc
    fuel_surcharge_waiver := CreditCardProcessor.has_fuel_surcharge_waiver desc feats
    lounge_access := CreditCardProcessor.has_lounge_access desc feats }

/-- The reputable-bank list of CreditCardProcessor.calculate_score. -/
def reputableBanksCC : List String := ["sbi", "hdfc", "icici", "axis", "kotak"]

/-- CreditCardProcessor.calculate_score.  The user_preferences argument
is accepted and unread, as in the source. -/
def CreditCardProcessor.calculate_score (product : CreditCardInfo)
    (_prefs : Preferences) : ℚ :=
  let cashback : ℚ :=
    if truthyQ product.cashback_rate then
      min ((product.cashback_rate.getD 0) * 5) 30
    else 0
  let fee : ℚ :=
    match product.annual_fee with
    | some f => if f == 0 then 25 else if f ≤ 500 then 20 else if f ≤ 2000 then 10 else 5
    | none => 15
  let benefit : ℚ :=
    (if product.fuel_surcharge_waiver then 5 else 0) +
    (if product.lounge_access then 10 else 0) +
    (if truthyS product.welcome_benefit then 5 else 0)
  let featScore : ℚ := min ((product.features.length : ℚ) * 2) 15
  let bank : ℚ :=
    if reputableBanksCC.any (fun b => pyIn b (pyLower product.bank)) then 10 else 5
  min (cashback + fee + min benefit 20 + featScore + bank) 100

/-- FixedDepositProcessor._parse_rate: falsy input is absent, otherwise
str(value) with percent signs removed and stripped must parse as a
float (ValueError makes the value absent, never an exception). -/
def FixedDepositProcessor.parse_rate (v : Val) : Option ℚ :=
  if !v.truthy then none
  else pyFloatOfStr (pyStrip (pyRemoveChar v.str '%'))

/-- The bank field of a fixed-deposit record (bank_name, else bank, else
the default).  Python stores the raw value; calculate_score calls
.lower() on it unconditionally inside the same per-record try block, so
a non-string bank is surfaced here and the surviving records agree. -/
def fdBankStr (raw : RawRecord) : Except PyErr String :=
  match raw.getD "bank_name" (raw.getD "bank" (.vs "Unknown Bank")) with
  | .vs s => .ok s
  | _ => .error .attrErr

/-- FixedDepositProcessor._extract_features: rate and tenure summary
lines.  The tenure branch calls int() on any truthy raw value, which is
where Python raises ValueError on a non-numeric tenure string. -/
def FixedDepositProcessor.extract_features (raw : RawRecord) :
    Except PyErr (List String) := do
  let max_rate := FixedDepositProcessor.parse_rate
    (raw.get "roi_in_percentage_max_tenure")
  let senior_rate := FixedDepositProcessor.parse_rate
    (raw.get "roi_in_percentage_senior_citizen_max_tenure")
  let f1 : List String :=
    if truthyQ max_rate then
      ["Interest rate up to " ++ ratRepr (max_rate.getD 0) ++ "%"]
    else []
  let f2 : List String :=
    if truthyQ senior_rate && truthyQ max_rate &&
        decide (max_rate.getD 0 < senior_rate.getD 0) then
      ["Senior citizen rate: " ++ ratRepr (senior_rate.getD 0) ++ "%"]
    else []
  let tf := raw.get "tenure_from_days"
  let f3 : List String ←
    if tf.truthy then do
      let z ← pyIntOfVal tf
      let years : ℚ := (z : ℚ) / 365
      if (1 : ℚ) ≤ years then
        pure ["Minimum tenure: " ++ formatOneDec years ++ " years"]
      else
        pure ["Minimum tenure: " ++ toString z ++ " days"]
    else pure []
  pure (f1 ++ f2 ++ f3)

/-- FixedDepositProcessor.process_product.  The about field is stored
for display only and never consumed downstream; the embedding stores its
string rendering. -/
def FixedDepositProcessor.process_product (raw : RawRecord) :
    Except PyErr FixedDepositInfo := do
  let bank_name ← fdBankStr raw
  let name := bank_name ++ " Fixed Deposit"
  let features ← FixedDepositProcessor.extract_features raw
  let tf := raw.get "tenure_from_days"
  let tt := raw.get "tenure_to_days"
  let tenure_from ← if tf.truthy then (pyIntOfVal tf).map some else pure none
  let tenure_to ← if tt.truthy then (pyIntOfVal tt).map some else pure none
  .ok {
    id := "fd_" ++ toString (pyHash name)
    name := name
    description := (raw.getD "about" (.vs "")).str
    category := .fixed_deposits
    features := features
    bank_name := bank_name
    interest_rate_min := FixedDepositProcessor.parse_rate
      (raw.get "roi_in_percentage_min_tenure")
    interest_rate_max := FixedDepositProcessor.parse_rate
      (raw.get "roi_in_percentage_max_tenure")
    tenure_from_days := tenure_from
    tenure_to_days := tenure_to
    senior_citizen_rate := FixedDepositProcessor.parse_rate
      (raw.get "roi_in_percentage_senior_citizen_max_tenure") }

/-- The reputable-bank list of FixedDepositProcessor.calculate_score. -/
def reputableBanksFD : List String :=
  ["sbi", "hdfc", "icici", "axis", "kotak", "pnb"]

/-- FixedDepositProcessor.calculate_score. -/
def FixedDepositProcessor.calculate_score (product : FixedDepositInfo)
    (_prefs : Preferences) : ℚ :=
  let rate : ℚ :=
    if truthyQ product.interest_rate_max then
      min ((product.interest_rate_max.getD 0) * 8) 50
    else 0
  let senior : ℚ :=
    if truthyQ product.senior_citizen_rate && truthyQ product.interest_rate_max then
      if product.interest_rate_max.getD 0 < product.senior_citizen_rate.getD 0 then 20
      else 10
    else 0
  let tenure : ℚ :=
    if truthyZ product.tenure_from_days && truthyZ product.tenure_to_days then
      let range := product.tenure_to_days.getD 0 - product.tenure_from_days.getD 0
      if 1000 < range then 20 else if 365 < range then 15 else 10
    else 0
  let bank : ℚ :=
    if reputableBanksFD.any (fun b => pyIn b (pyLower product.bank_name)) then 10
    else 5
  min (rate + senior + tenure + bank) 100

/-- MutualFundProcessor._extract_return_percentage: falsy input is
absent, otherwise str(value) with percent signs removed and stripped
must parse as a float. -/
def MutualFundProcessor.extract_return_percentage (v : Val) : Option ℚ :=
  if !v.truthy then none
  else pyFloatOfStr (pyStrip (pyRemoveChar v.str '%'))

/-- MutualFundProcessor._safe_float_conversion. -/
def MutualFundProcessor.safe_float_conversion : Val → Option ℚ
  | .vnull => none
  | v => pyFloatOfVal v

/-- MutualFundProcessor._safe_int_conversion. -/
def MutualFundProcessor.safe_int_conversion : Val → ℤ
  | .vnull => 0
  | .vn q => q.num / (q.den : ℤ)
  | .vs s => (pyIntOfStr s).getD 0
  | .vl _ => 0

/-- The risk_level field.  Python stores the raw value; calculate_score
lowers it unconditionally in _calculate_risk_score inside the same
per-record try block, so a non-string value is surfaced here. -/
def mfRiskLevelStr (raw : RawRecord) : Except PyErr String :=
  match raw.getD "risk_level" (.vs "Unknown") with
  | .vs s => .ok s
  | _ => .error .attrErr

/-- The holdings field as Python's len() sees it: the conditional keeps
any truthy raw value, and the only consumer is the len() call in the
stability score (same per-record try block), so a string contributes its
characters and a truthy number raises here. -/
def mfHoldingsList (raw : RawRecord) : Except PyErr (List String) :=
  let v := raw.get "holdings"
  if !v.truthy then .ok []
  else
    match v with
    | .vl l => .ok l
    | .vs s => .ok (s.data.map String.singleton)
    | _ => .error .typeErr

/-- MutualFundProcessor._extract_features: display strings built from
the raw fields present and truthy. -/
def MutualFundProcessor.extract_features (raw : RawRecord) : List String :=
  (if (raw.get "returns_3y").truthy then
    ["3Y Returns: " ++ (raw.get "returns_3y").str] else []) ++
  (if (raw.get "returns_5y").truthy then
    ["5Y Returns: " ++ (raw.get "returns_5y").str] else []) ++
  (if (raw.get "rating").truthy then
    ["Rating: " ++ (raw.get "rating").str ++ "/5 stars"] else []) ++
  (if (raw.get "risk_level").truthy then
    ["Risk: " ++ (raw.get "risk_level").str] else []) ++
  (if (raw.get "expense_ratio").truthy then
    ["Expense Ratio: " ++ (raw.get "expense_ratio").str ++ "%"] else []) ++
  (if (raw.get "min_investment").truthy then
    ["Min Investment: ₹" ++ (raw.get "min_investment").str] else []) ++
  (if (raw.get "fund_manager").truthy then
    ["Fund Manager: " ++ (raw.get "fund_manager").str] else [])

/-- MutualFundProcessor.process_product. -/
def MutualFundProcessor.process_product (raw : RawRecord) :
    Except PyErr MutualFundInfo := do
  let name ← rawNameStr raw
  let risk_level ← mfRiskLevelStr raw
  let holdings ← mfHoldingsList raw
  .ok {
    id := "mf_" ++ toString (pyHash name)
    name := name
    description := (raw.getD "description" (.vs "")).str
    category := .mutual_funds
    features := MutualFundProcessor.extract_features raw
    amc := raw.getD "amc" (.vs "Unknown")
    risk_level := risk_level
    rating := MutualFundProcessor.safe_int_conversion (raw.getD "rating" (.vn 0))
    returns_1y := MutualFundProcessor.extract_return_percentage (raw.get "returns_1y")
    returns_3y := MutualFundProcessor.extract_return_percentage (raw.get "returns_3y")
    returns_5y := MutualFundProcessor.extract_return_percentage (raw.get "returns_5y")
    nav := MutualFundProcessor.safe_float_conversion (raw.get "nav")
    aum := MutualFundProcessor.safe_float_conversion (raw.get "aum")
    expense_rate := MutualFundProcessor.safe_float_conversion (raw.get "expense_ratio")
    min_investment := MutualFundProcessor.safe_float_conversion (raw.get "min_investment")
    fund_manager := raw.get "fund_manager"
    inception_date := raw.get "inception_date"
    holdings := holdings
    sector_allocation :=
      if (raw.get "sector_allocation").truthy then raw.get "sector_allocation"
      else .vl [] }

/-- MutualFundProcessor._calculate_performance_score: the longest
available horizon wins (is-not-None checks, not truthiness). -/
def MutualFundProcessor.calculate_performance_score (product : MutualFundInfo) : ℚ :=
  let score : ℚ :=
    match product.returns_5y with
    | some r => min (r * 2) 50
    | none =>
      match product.returns_3y with
      | some r => min (r * 1.5) 40
      | none =>
        match product.returns_1y with
        | some r => min r 30
        | none => 0
  min score 50

/-- MutualFundProcessor._calculate_rating_score. -/
def MutualFundProcessor.calculate_rating_score (rating : ℤ) : ℚ :=
  if rating ≤ 0 then 0 else (rating : ℚ) / 5 * 25

/-- The fixed risk-text-to-ordinal mapping of _calculate_risk_score. -/
def riskMapping : List (String × ℤ) :=
  [("low risk", 1), ("low to moderate risk", 2), ("moderate risk", 3),
   ("moderately high risk", 4), ("high risk", 5), ("very high risk", 6)]

/-- Lookup in the risk mapping, defaulting to 3 (moderate) when the text
is unmapped. -/
def riskOrdinal (s : String) : ℤ :=
  ((riskMapping.find? (fun p => p.1 == s)).map (fun p => p.2)).getD 3

/-- MutualFundProcessor._calculate_risk_score. -/
def MutualFundProcessor.calculate_risk_score (risk_level : String)
    (prefs : Preferences) : ℚ :=
  let user_risk_tolerance := prefs.risk_tolerance.getD "moderate risk"
  let product_risk := riskOrdinal (pyLower risk_level)
  let user_risk := riskOrdinal (pyLower user_risk_tolerance)
  let risk_diff := |product_risk - user_risk|
  if risk_diff == 0 then 20
  else if risk_diff == 1 then 15
  else if risk_diff == 2 then 10
  else 5

/-- MutualFundProcessor._calculate_expense_score (embedding the source
field expense_ratio). -/
def MutualFundProcessor.calculate_expense_score : Option ℚ → ℚ
  | none => 5
  | some e =>
    if e ≤ 0.5 then 10 else if e ≤ 1 then 8 else if e ≤ 1.5 then 6
    else if e ≤ 2 then 4 else 2

/-- MutualFundProcessor._calculate_stability_score. -/
def MutualFundProcessor.calculate_stability_score (product : MutualFundInfo) : ℚ :=
  (match product.aum with
   | some a =>
     if 10000 ≤ a then 3 else if 5000 ≤ a then 2 else if 1000 ≤ a then 1 else 0
   | none => 0) +
  (if product.fund_manager.truthy then 1 else 0) +
  (if 50 < product.holdings.length then 1 else 0)

/-- MutualFundProcessor.calculate_score: the weighted sum of the five
component scores, clamped to 100. -/
def MutualFundProcessor.calculate_score (product : MutualFundInfo)
    (prefs : Preferences) : ℚ :=
  let score :=
    MutualFundProcessor.calculate_performance_score product * 0.4 +
    MutualFundProcessor.calculate_rating_score product.rating * 0.25 +
    MutualFundProcessor.calculate_risk_score product.risk_level prefs * 0.2 +
    MutualFundProcessor.calculate_expense_score product.expense_rate * 0.1 +
    MutualFundProcessor.calculate_stability_score product * 0.05
  min score 100

/-- Stable insertion into a descending-sorted list: the element passes
the strictly larger scores and lands before the first score less than or
equal to its own, which keeps earlier-listed elements first on ties. -/
def insDesc (x : ScoredProduct) : List ScoredProduct → List ScoredProduct
  | [] => [x]
  | y :: ys => if x.score < y.score then y :: insDesc x ys else x :: y :: ys

/-- Stable descending insertion sort by score.  Python's sorted with a
score key and reverse set is a stable descending sort, and any stable
descending sort of the same list by the same key produces the identical
output list. -/
def sortByScoreDesc : List ScoredProduct → List ScoredProduct
  | [] => []
  | x :: xs => insDesc x (sortByScoreDesc xs)

/-- The keyword table of CreditCardRanker._calculate_query_relevance. -/
def ccKeywordMatches : List (String × List String) :=
  [("cashback", ["cashback", "cash back", "rewards"]),
   ("travel", ["travel", "miles", "airline", "hotel"]),
   ("fuel", ["fuel", "petrol", "gas"]),
   ("dining", ["dining", "restaurant", "food"]),
   ("shopping", ["shopping", "online", "ecommerce"]),
   ("premium", ["premium", "luxury", "exclusive"]),
   ("no annual fee", ["no annual fee", "free", "zero fee"])]

/-- CreditCardRanker._calculate_query_relevance. -/
def CreditCardRanker.calculate_query_relevance (product : Product)
    (query : String) : ℚ :=
  if query.isEmpty then 0
  else
    let ql := pyLower query
    let qwords := pySplitWs ql
    let base : ℚ := if qwords.any (fun w => pyIn w (pyLower product.name)) then 0.3 else 0
    let feature_text := pyLower (joinWith " " product.features)
    let loopScore := qwords.foldl (fun acc w =>
      ccKeywordMatches.foldl (fun acc2 kv =>
        if kv.2.contains w && pyIn kv.1 feature_text then acc2 + 0.1 else acc2) acc) base
    min loopScore 1

/-- CreditCardRanker._calculate_preference_alignment. -/
def CreditCardRanker.calculate_preference_alignment (product : Product)
    (prefs : Preferences) : ℚ :=
  let ftext := pyLower (joinWith " " product.features)
  let a1 : ℚ :=
    match prefs.max_annual_fee with
    | some _ =>
      if pyIn "no annual fee" ftext then 0.4
      else if pyIn "annual fee" ftext then 0.2
      else 0
    | none => 0
  let nameL := pyLower product.name
  let income := prefs.income_range.getD ""
  let a2 : ℚ :=
    if income.isEmpty then 0
    else if income == "premium" &&
        ["premium", "privilege", "signature"].any (fun w => pyIn w nameL) then 0.3
    else if income == "mid" &&
        ["select", "classic"].any (fun w => pyIn w nameL) then 0.3
    else if income == "entry" &&
        ["student", "basic", "starter"].any (fun w => pyIn w nameL) then 0.3
    else 0
  let a3 : ℚ := prefs.spending_categories.foldl
    (fun acc c => if pyIn (pyLower c) ftext then acc + 0.1 else acc) 0
  min (a1 + a2 + a3) 1

/-- The bonus table of CreditCardRanker._calculate_category_optimization. -/
def ccHighValueCategories : List (String × ℚ) :=
  [("travel", 0.3), ("dining", 0.2), ("fuel", 0.2),
   ("online shopping", 0.25), ("groceries", 0.15)]

/-- CreditCardRanker._calculate_category_optimization. -/
def CreditCardRanker.calculate_category_optimization (product : Product)
    (_prefs : Preferences) : ℚ :=
  let ftext := pyLower (joinWith " " product.features)
  let s := ccHighValueCategories.foldl
    (fun acc kv => if pyIn kv.1 ftext then acc + kv.2 else acc) 0
  min s 1

/-- CreditCardRanker._calculate_enhanced_score. -/
def CreditCardRanker.calculate_enhanced_score (p : ScoredProduct)
    (query : String) (prefs : Preferences) : ℚ :=
  min (p.score +
    CreditCardRanker.calculate_query_relevance p.product query * 5 +
    CreditCardRanker.calculate_preference_alignment p.product prefs * 3 +
    CreditCardRanker.calculate_category_optimization p.product prefs * 2) 100

/-- CreditCardRanker._generate_ranking_reasoning. -/
def CreditCardRanker.generate_ranking_reasoning (p : ScoredProduct)
    (enhanced : ℚ) : String :=
  let imp := enhanced - p.score
  p.reasoning ++
    (if 3 < imp then " Highly relevant to your query and preferences."
     else if 1 < imp then " Good match for your requirements."
     else if 0 < imp then " Partially matches your preferences."
     else "")

/-- The per-product enhancement step of CreditCardRanker.rank_products. -/
def CreditCardRanker.enhance (user_query : String) (prefs : Preferences)
    (p : ScoredProduct) : ScoredProduct :=
  let es := CreditCardRanker.calculate_enhanced_score p user_query prefs
  { product := p.product
    score := es
    reasoning := CreditCardRanker.generate_ranking_reasoning p es }

/-- CreditCardRanker.rank_products. -/
def CreditCardRanker.rank_products (products : List ScoredProduct)
    (user_query : String) (prefs : Preferences) : List ScoredProduct :=
  if products.isEmpty then []
  else sortByScoreDesc (products.map (CreditCardRanker.enhance user_query prefs))

/-- The tenure keyword table of FixedDepositRanker. -/
def fdTenureKeywords : List (String × List String) :=
  [("short_term", ["7 days", "15 days", "30 days", "1 month", "3 months", "6 months"]),
   ("medium_term", ["1 year", "2 years", "3 years", "18 months"]),
   ("long_term", ["4 years", "5 years", "7 years", "10 years"])]

/-- FixedDepositRanker._calculate_tenure_alignment. -/
def FixedDepositRanker.calculate_tenure_alignment (product : Product)
    (prefs : Preferences) : ℚ :=
  let pt := prefs.investment_tenure.getD ""
  if pt.isEmpty then 0
  else
    let ptext := pyLower (product.name ++ " " ++ joinWith " " product.features)
    let a1 : ℚ :=
      match fdTenureKeywords.find? (fun kv => kv.1 == pt) with
      | some kv => if kv.2.any (fun k => pyIn k ptext) then 0.5 else 0
      | none => 0
    let a2 : ℚ :=
      if ["flexible", "auto renewal", "premature withdrawal"].any
          (fun t => pyIn t ptext) then 0.3
      else 0
    min (a1 + a2) 1

/-- FixedDepositRanker._calculate_amount_alignment (zero amount is falsy
and yields no boost, as in the source's truthiness test). -/
def FixedDepositRanker.calculate_amount_alignment (product : Product)
    (prefs : Preferences) : ℚ :=
  match prefs.investment_amount with
  | none => 0
  | some amt =>
    if amt == 0 then 0
    else
      let ptext := pyLower (joinWith " " product.features)
      let a : ℚ :=
        if 100000 ≤ amt then
          if ["high value", "premium", "bulk deposit"].any (fun t => pyIn t ptext)
          then 0.5 else 0
        else if 25000 ≤ amt then
          if ["regular", "standard"].any (fun t => pyIn t ptext) then 0.4 else 0
        else
          if ["minimum", "small", "low amount"].any (fun t => pyIn t ptext)
          then 0.4 else 0
      min a 1

/-- FixedDepositRanker._calculate_senior_citizen_boost. -/
def FixedDepositRanker.calculate_senior_citizen_boost (product : Product)
    (prefs : Preferences) : ℚ :=
  if !prefs.is_senior_citizen then 0
  else
    let ptext := pyLower (product.name ++ " " ++ joinWith " " product.features)
    let b : ℚ :=
      if ["senior citizen", "senior", "additional rate", "extra interest",
          "higher rate for senior", "bonus rate"].any (fun k => pyIn k ptext)
      then 0.3 else 0
    min b 1

/-- The query keyword table of FixedDepositRanker. -/
def fdQueryKeywords : List (String × List String) :=
  [("high interest", ["high", "best", "maximum", "top"]),
   ("short term", ["short", "quick", "immediate"]),
   ("long term", ["long", "extended", "multi-year"]),
   ("flexible", ["flexible", "premature", "withdrawal"]),
   ("safe", ["safe", "secure", "guaranteed"]),
   ("senior citizen", ["senior", "citizen", "elderly"])]

/-- Inner keyword loop of FixedDepositRanker._calculate_query_relevance:
the first table entry whose keyword list holds the query word and whose
space-free category name occurs in the space-free product text adds the
bonus once (the source breaks out of the loop there). -/
def fdInnerHit (w : String) (ptextNoSp : String) :
    List (String × List String) → ℚ
  | [] => 0
  | kv :: rest =>
    if kv.2.contains w && pyIn (pyRemoveChar kv.1 ' ') ptextNoSp then 0.2
    else fdInnerHit w ptextNoSp rest

/-- FixedDepositRanker._calculate_query_relevance. -/
def FixedDepositRanker.calculate_query_relevance (product : Product)
    (query : String) : ℚ :=
  if query.isEmpty then 0
  else
    let ql := pyLower query
    let ptext := pyLower (product.name ++ " " ++ joinWith " " product.features)
    let ptextNoSp := pyRemoveChar ptext ' '
    let loopScore := (pySplitWs ql).foldl
      (fun acc w => acc + fdInnerHit w ptextNoSp fdQueryKeywords) 0
    let nameBonus : ℚ :=
      if (pySplitWs ql).any (fun w => pyIn w (pyLower product.name)) then 0.3 else 0
    min (loopScore + nameBonus) 1

/-- FixedDepositRanker._calculate_safety_boost. -/
def FixedDepositRanker.calculate_safety_boost (product : Product) : ℚ :=
  let ptext := pyLower (product.name ++ " " ++ joinWith " " product.features)
  let s1 : ℚ :=
    if ["sbi", "state bank", "pnb", "punjab national", "bank of baroda",
        "canara bank", "union bank", "indian bank", "government"].any
        (fun i => pyIn i ptext) then 0.4
    else 0
  let s2 : ℚ :=
    if ["dicgc", "insured", "deposit insurance"].any (fun t => pyIn t ptext)
    then 0.3 else 0
  let s3 : ℚ :=
    if ["aaa", "aa+", "stable rating"].any (fun t => pyIn t ptext)
    then 0.3 else 0
  min (s1 + s2 + s3) 1

/-- FixedDepositRanker._calculate_enhanced_score. -/
def FixedDepositRanker.calculate_enhanced_score (p : ScoredProduct)
    (query : String) (prefs : Preferences) : ℚ :=
  min (p.score +
    FixedDepositRanker.calculate_tenure_alignment p.product prefs * 3 +
    FixedDepositRanker.calculate_amount_alignment p.product prefs * 2 +
    FixedDepositRanker.calculate_senior_citizen_boost p.product prefs * 2 +
    FixedDepositRanker.calculate_query_relevance p.product query * 2 +
    FixedDepositRanker.calculate_safety_boost p.product * 1) 100

/-- FixedDepositRanker._generate_ranking_reasoning. -/
def FixedDepositRanker.generate_ranking_reasoning (p : ScoredProduct)
    (enhanced : ℚ) : String :=
  let imp := enhanced - p.score
  p.reasoning ++
    (if 2 < imp then
      " Excellent match for your deposit requirements and risk profile."
     else if 1 < imp then " Good alignment with your investment preferences."
     else if 0.5 < imp then " Suitable option for your deposit needs."
     else "")

/-- The per-product enhancement step of FixedDepositRanker.rank_products. -/
def FixedDepositRanker.enhance (user_query : String) (prefs : Preferences)
    (p : ScoredProduct) : ScoredProduct :=
  let es := FixedDepositRanker.calculate_enhanced_score p user_query prefs
  { product := p.product
    score := es
    reasoning := FixedDepositRanker.generate_ranking_reasoning p es }

/-- FixedDepositRanker.rank_products. -/
def FixedDepositRanker.rank_products (products : List ScoredProduct)
    (user_query : String) (prefs : Preferences) : List ScoredProduct :=
  if products.isEmpty then []
  else sortByScoreDesc (products.map (FixedDepositRanker.enhance user_query prefs))

/-- MutualFundRanker._calculate_goal_alignment.  When the investment
goal is a nonempty string the source computes getattr(product, the
category attribute, empty string).lower(); every processed product's
category attribute is a ProductCategory enum member, which has no lower
method, so Python raises AttributeError before reaching the goal
mapping table.  An empty or absent goal returns zero first. -/
def MutualFundRanker.calculate_goal_alignment (_product : Product)
    (prefs : Preferences) : Except PyErr ℚ :=
  let goal := pyLower (prefs.investment_goal.getD "")
  if goal.isEmpty then .ok 0 else .error .attrErr

/-- MutualFundRanker._calculate_horizon_optimization: floored at zero
after the branch rules (mismatch penalties cannot push it negative). -/
def MutualFundRanker.calculate_horizon_optimization (product : Product)
    (prefs : Preferences) : ℚ :=
  let horizon := pyLower (prefs.investment_horizon.getD "")
  if horizon.isEmpty then 0
  else
    let ptext := pyLower (product.name ++ " " ++ joinWith " " product.features)
    let opt : ℚ :=
      if horizon == "short term" || horizon == "1-3 years" then
        if ["debt", "liquid", "short term", "conservative"].any
            (fun t => pyIn t ptext) then 0.5
        else if ["equity", "aggressive"].any (fun t => pyIn t ptext) then -0.2
        else 0
      else if horizon == "medium term" || horizon == "3-7 years" then
        if ["balanced", "hybrid", "moderate"].any (fun t => pyIn t ptext) then 0.5
        else if ["large cap", "diversified"].any (fun t => pyIn t ptext) then 0.3
        else 0
      else if horizon == "long term" || horizon == "7+ years" then
        if ["equity", "growth", "small cap", "mid cap"].any
            (fun t => pyIn t ptext) then 0.5
        else if ["debt", "liquid"].any (fun t => pyIn t ptext) then -0.1
        else 0
      else 0
    max opt 0

/-- The query keyword table of MutualFundRanker. -/
def mfQueryKeywords : List (String × List String) :=
  [("sip", ["sip", "systematic"]),
   ("tax saving", ["elss", "tax"]),
   ("large cap", ["large cap", "blue chip"]),
   ("small cap", ["small cap"]),
   ("mid cap", ["mid cap"]),
   ("debt", ["debt", "bond", "fixed income"]),
   ("equity", ["equity", "stock"]),
   ("balanced", ["balanced", "hybrid"]),
   ("sectoral", ["sectoral", "thematic"]),
   ("index", ["index", "passive"])]

/-- Inner keyword loop of MutualFundRanker._calculate_query_relevance:
the first entry whose keyword list holds the query word and one of whose
keywords occurs in the product text adds the bonus once. -/
def mfInnerHit (w : String) (ptext : String) :
    List (String × List String) → ℚ
  | [] => 0
  | kv :: rest =>
    if kv.2.contains w && kv.2.any (fun k => pyIn k ptext) then 0.2
    else mfInnerHit w ptext rest

/-- MutualFundRanker._calculate_query_relevance. -/
def MutualFundRanker.calculate_query_relevance (product : Product)
    (query : String) : ℚ :=
  if query.isEmpty then 0
  else
    let ql := pyLower query
    let nameBonus : ℚ :=
      if (pySplitWs ql).any (fun w => pyIn w (pyLower product.name)) then 0.3 else 0
    let ptext := pyLower (product.name ++ " " ++ joinWith " " product.features)
    let loopScore := (pySplitWs ql).foldl
      (fun acc w => acc + mfInnerHit w ptext mfQueryKeywords) 0
    min (nameBonus + loopScore) 1

/-- The risk_level attribute as seen by getattr with a default (only
mutual-fund products carry it). -/
def Product.risk_level_attr : Product → Option String
  | .mf p => some p.risk_level
  | _ => none

/-- MutualFundRanker._calculate_sip_suitability: floored at zero. -/
def MutualFundRanker.calculate_sip_suitability (product : Product)
    (prefs : Preferences) : ℚ :=
  let sip_preference := pyLower (prefs.investment_type.getD "")
  if !pyIn "sip" sip_preference then 0
  else
    let ptext := pyLower (product.name ++ " " ++ joinWith " " product.features)
    let s1 : ℚ :=
      if ["equity", "growth", "diversified"].any (fun t => pyIn t ptext)
      then 0.4 else 0
    let s2 : ℚ :=
      if ["large cap", "diversified", "bluechip"].any (fun t => pyIn t ptext)
      then 0.3 else 0
    let rl := pyLower (product.risk_level_attr.getD "")
    let s3 : ℚ := if pyIn "very high" rl then -0.1 else 0
    max (s1 + s2 + s3) 0

/-- MutualFundRanker._calculate_enhanced_score (propagating the
AttributeError of the goal-alignment helper). -/
def MutualFundRanker.calculate_enhanced_score (p : ScoredProduct)
    (query : String) (prefs : Preferences) : Except PyErr ℚ := do
  let goal ← MutualFundRanker.calculate_goal_alignment p.product prefs
  .ok (min (p.score + goal * 4 +
    MutualFundRanker.calculate_horizon_optimization p.product prefs * 3 +
    MutualFundRanker.calculate_query_relevance p.product query * 2 +
    MutualFundRanker.calculate_sip_suitability p.product prefs * 1) 100)

/-- MutualFundRanker._generate_ranking_reasoning. -/
def MutualFundRanker.generate_ranking_reasoning (p : ScoredProduct)
    (enhanced : ℚ) : String :=
  let imp := enhanced - p.score
  p.reasoning ++
    (if 3 < imp then
      " Excellent alignment with your investment goals and risk profile."
     else if 1.5 < imp then " Good match for your investment strategy."
     else if 0.5 < imp then " Suitable for your investment preferences."
     else "")

/-- The element-wise loop building a new list and stopping at the first
raised exception (a Python for loop appending each result). -/
def exceptMapList {α β : Type} (f : α → Except PyErr β) :
    List α → Except PyErr (List β)
  | [] => .ok []
  | x :: xs => do
    let y ← f x
    let ys ← exceptMapList f xs
    .ok (y :: ys)

/-- The per-product enhancement step of MutualFundRanker.rank_products. -/
def MutualFundRanker.enhance (user_query : String) (prefs : Preferences)
    (p : ScoredProduct) : Except PyErr ScoredProduct := do
  let es ← MutualFundRanker.calculate_enhanced_score p user_query prefs
  .ok { product := p.product
        score := es
        reasoning := MutualFundRanker.generate_ranking_reasoning p es }

/-- MutualFundRanker.rank_products (per-product errors propagate out of
the ranking loop, as in the source). -/
def MutualFundRanker.rank_products (products : List ScoredProduct)
    (user_query : String) (prefs : Preferences) :
    Except PyErr (List ScoredProduct) :=
  if products.isEmpty then .ok []
  else do
    let enhanced ← exceptMapList (MutualFundRanker.enhance user_query prefs) products
    .ok (sortByScoreDesc enhanced)

/-- ProductRecommendation of financial_product_manager.py. -/
structure ProductRecommendation where
  products : List ScoredProduct
  total_found : ℕ
  query_processed : String
  recommendations_reasoning : String
  deriving DecidableEq, Repr

/-- The category value strings of the enumeration. -/
def ProductCategory.value : ProductCategory → String
  | .credit_cards => "credit_cards"
  | .fixed_deposits => "fixed_deposits"
  | .mutual_funds => "mutual_funds"
  | .insurance => "insurance"
  | .loans => "loans"

/-- The per-category source-filter preference key read by
_process_category (the key named after the category value). -/
def Preferences.sourceFilter (prefs : Preferences) :
    ProductCategory → Option String
  | .credit_cards => prefs.credit_cards_source
  | .fixed_deposits => prefs.fixed_deposits_source
  | .mutual_funds => prefs.mutual_funds_source
  | .insurance => prefs.insurance_source
  | .loans => prefs.loans_source

/-- One round of the per-record loop of _process_category for credit
cards: process, score and wrap; any exception drops only the record. -/
def ccScoreRecord (raw : RawRecord) (prefs : Preferences) :
    Option ScoredProduct :=
  match CreditCardProcessor.process_product raw with
  | .error _ => none
  | .ok p =>
    let score := CreditCardProcessor.calculate_score p prefs
    some { product := .cc p
           score := score
           reasoning := "Base score: " ++ formatOneDec score }

/-- One round of the per-record loop for fixed deposits. -/
def fdScoreRecord (raw : RawRecord) (prefs : Preferences) :
    Option ScoredProduct :=
  match FixedDepositProcessor.process_product raw with
  | .error _ => none
  | .ok p =>
    let score := FixedDepositProcessor.calculate_score p prefs
    some { product := .fd p
           score := score
           reasoning := "Base score: " ++ formatOneDec score }

/-- One round of the per-record loop for mutual funds. -/
def mfScoreRecord (raw : RawRecord) (prefs : Preferences) :
    Option ScoredProduct :=
  match MutualFundProcessor.process_product raw with
  | .error _ => none
  | .ok p =>
    let score := MutualFundProcessor.calculate_score p prefs
    some { product := .mf p
           score := score
           reasoning := "Base score: " ++ formatOneDec score }

/-- FinancialProductManager._process_category.  The manager's loader,
processor and ranker dictionaries register only the three implemented
categories, so the first dictionary lookup raises KeyError for insurance
and loans; the external loader collection is the load function. -/
def FinancialProductManager.process_category
    (load : ProductCategory → Option String → List RawRecord)
    (category : ProductCategory) (user_query : String) (prefs : Preferences) :
    Except PyErr (List ScoredProduct) :=
  match category with
  | .credit_cards =>
    let raw := load .credit_cards (prefs.sourceFilter .credit_cards)
    let scored := raw.filterMap (fun r => ccScoreRecord r prefs)
    .ok (CreditCardRanker.rank_products scored user_query prefs)
  | .fixed_deposits =>
    let raw := load .fixed_deposits (prefs.sourceFilter .fixed_deposits)
    let scored := raw.filterMap (fun r => fdScoreRecord r prefs)
    .ok (FixedDepositRanker.rank_products scored user_query prefs)
  | .mutual_funds =>
    let raw := load .mutual_funds (prefs.sourceFilter .mutual_funds)
    let scored := raw.filterMap (fun r => mfScoreRecord r prefs)
    MutualFundRanker.rank_products scored user_query prefs
  | .insurance => .error .keyErr
  | .loans => .error .keyErr

/-- FinancialProductManager._generate_recommendation_reasoning.  The
category names pass through Python's set; the embedding keeps first
occurrences (iteration order of a small string set is implementation
defined, and only the empty branch is asserted verbatim by a theorem). -/
def FinancialProductManager.generate_recommendation_reasoning
    (user_query : String) (products : List ScoredProduct)
    (total_found : ℕ) : String :=
  match products with
  | [] =>
    "No products found matching " ++ String.singleton quoteCh ++ user_query ++
      String.singleton quoteCh ++ ". Try different search terms."
  | top :: _ =>
    let cats := (products.map (fun p => p.product.category.value)).eraseDups
    "Found " ++ toString total_found ++ " products matching " ++
      String.singleton quoteCh ++ user_query ++ String.singleton quoteCh ++ ". " ++
      "Showing top " ++ toString products.length ++ " recommendations " ++
      "from " ++ toString cats.length ++ " categories: " ++
      joinWith ", " cats ++ ". " ++
      "Top recommendation score: " ++ formatOneDec top.score ++ "/100."

/-- FinancialProductManager.recommend_products.  The loader collection
(the external raw-data source) is the load argument; max_results is the
result-count cap.  A category whose processing raises is skipped by the
per-category try of the source, never failing the call. -/
def FinancialProductManager.recommend_products
    (load : ProductCategory → Option String → List RawRecord)
    (user_query : String)
    (product_categories : Option (List ProductCategory))
    (prefs : Preferences) (max_results : ℕ) : ProductRecommendation :=
  let categories := product_categories.getD ProductCategory.all
  let all_products := categories.foldl (fun acc c =>
    match FinancialProductManager.process_category load c user_query prefs with
    | .ok l => acc ++ l
    | .error _ => acc) []
  let final := (sortByScoreDesc all_products).take max_results
  { products := final
    total_found := all_products.length
    query_processed := user_query
    recommendations_reasoning :=
      FinancialProductManager.generate_recommendation_reasoning
        user_query final all_products.length }

/-- Non-negativity of the optional numeric attribute consumed by the
credit-card scoring arithmetic. -/
def CreditCardInfo.nonnegAttrs (p : CreditCardInfo) : Prop :=
  ∀ r, p.cashback_rate = some r → 0 ≤ r

/-- Non-negativity of the optional numeric attribute consumed by the
fixed-deposit scoring arithmetic. -/
def FixedDepositInfo.nonnegAttrs (p : FixedDepositInfo) : Prop :=
  ∀ r, p.interest_rate_max = some r → 0 ≤ r

/-- Non-negativity of the optional return attributes consumed by the
mutual-fund scoring arithmetic. -/
def MutualFundInfo.nonnegAttrs (p : MutualFundInfo) : Prop :=
  (∀ r, p.returns_1y = some r → 0 ≤ r) ∧
  (∀ r, p.returns_3y = some r → 0 ≤ r) ∧
  (∀ r, p.returns_5y = some r → 0 ≤ r)

/-- A credit card carrying a negative extracted cashback rate (the info
type stores any rational, and the scoring arithmetic never floors the
cashback term). -/
def ccNegSample : CreditCardInfo :=
  { id := "cc_0", name := "N", description := "", category := .credit_cards,
    features := [], bank := "", cashback_rate := some (-10) }

/-- Concrete well-behaved sample products used by the witnesses. -/
def ccSampleW : CreditCardInfo :=
  { id := "cc_1", name := "Card", description := "", category := .credit_cards,
    features := [], bank := "HDFC", annual_fee := some 0, cashback_rate := some 5 }

/-- Concrete fixed-deposit sample. -/
def fdSampleW : FixedDepositInfo :=
  { id := "fd_1", name := "SBI Fixed Deposit", description := "",
    category := .fixed_deposits, features := [], bank_name := "SBI",
    interest_rate_max := some 7 }

/-- Concrete mutual-fund sample. -/
def mfSampleW : MutualFundInfo :=
  { id := "mf_1", name := "Fund", description := "", category := .mutual_funds,
    features := [], amc := .vs "A", risk_level := "High Risk", rating := 4,
    returns_5y := some 12 }

/-- Concrete scored wrappers used by the witnesses. -/
def spccW : ScoredProduct := { product := .cc ccSampleW, score := 50, reasoning := "r" }

/-- Concrete scored fixed-deposit wrapper. -/
def spfdW : ScoredProduct := { product := .fd fdSampleW, score := 50, reasoning := "r" }

/-- Concrete scored mutual-fund wrapper. -/
def spmfW : ScoredProduct := { product := .mf mfSampleW, score := 50, reasoning := "r" }

/-- Enhanced concrete samples, defined by running the rankers on the
scored wrappers (an empty query and empty preferences). -/
def ccEnhW : ScoredProduct := CreditCardRanker.enhance "" {} spccW

/-- Enhanced fixed-deposit sample. -/
def fdEnhW : ScoredProduct := FixedDepositRanker.enhance "" {} spfdW

/-- The mutual-fund ranked output at the concrete sample. -/
def mfOutW : List ScoredProduct :=
  (MutualFundRanker.rank_products [spmfW] "" {}).toOption.getD []

/-- The enhanced mutual-fund sample. -/
def mfEnhW : ScoredProduct :=
  (MutualFundRanker.enhance "" {} spmfW).toOption.getD spmfW

/-- The value of the mutual-fund enhanced score at the concrete sample. -/
def mfEnhValW : ℚ :=
  (MutualFundRanker.calculate_enhanced_score spmfW "" {}).toOption.getD 0

/-- Fixed-deposit sample with a present but zero maximum rate. -/
def fdZeroA : FixedDepositInfo :=
  { id := "fd_0", name := "B Fixed Deposit", description := "",
    category := .fixed_deposits, features := [], bank_name := "B",
    interest_rate_max := some 0, senior_citizen_rate := some 0 }

/-- The same product with the senior rate moved above the maximum. -/
def fdZeroB : FixedDepositInfo := { fdZeroA with senior_citizen_rate := some 1 }

/-- The record with a non-numeric tenure string. -/
def fdBadTenure : RawRecord := [("tenure_from_days", Val.vs "abc")]

/-- The implemented categories (those registered in the manager's
processor, loader and ranker dictionaries). -/
def ProductCategory.implemented : ProductCategory → Bool
  | .credit_cards => true
  | .fixed_deposits => true
  | .mutual_funds => true
  | .insurance => false
  | .loans => false

/-- The example credit-card record of the scenario. -/
def c5Record : RawRecord :=
  [("name", .vs "Example Card"), ("bank", .vs "HDFC"), ("annual_fee", .vn 0),
   ("description", .vs "Earn 5% cashback on fuel, lounge access, welcome bonus")]

/-- The description text of the example record. -/
def c5Desc : String := "Earn 5% cashback on fuel, lounge access, welcome bonus"

/-- The processed form of the example record, computed by hand from the
source: the description mentions fuel but not fuel surcharge, so the
waiver flag stays off and the benefits block contributes fifteen. -/
def c5Info : CreditCardInfo :=
  { id := "cc_12"
    name := "Example Card"
    description := c5Desc
    category := .credit_cards
    features := ["Up to 5% cashback", "Airport lounge access", "Welcome benefits"]
    bank := "HDFC"
    annual_fee := some 0
    cashback_rate := some 5
    reward_rate := none
    welcome_benefit := some c5Desc
    fuel_surcharge_waiver := false
    lounge_access := true }

/-- A left fold whose step never decreases the accumulator is bounded
below by its starting value. -/
theorem foldl_step_le {α : Type} (f : ℚ → α → ℚ) (h : ∀ a x, a ≤ f a x) :
    ∀ (l : List α) (a : ℚ), a ≤ List.foldl f a l
  | [], a => le_refl a
  | x :: xs, a => le_trans (h a x) (foldl_step_le f h xs (f a x))

/-- The fixed-deposit inner keyword loop only ever returns zero or the
fixed bonus. -/
theorem fdInnerHit_nonneg (w ptext : String) :
    ∀ l, 0 ≤ fdInnerHit w ptext l
  | [] => le_refl 0
  | kv :: rest => by
    unfold fdInnerHit
    split
    · norm_num
    · exact fdInnerHit_nonneg w ptext rest

/-- The mutual-fund inner keyword loop only ever returns zero or the
fixed bonus. -/
theorem mfInnerHit_nonneg (w ptext : String) :
    ∀ l, 0 ≤ mfInnerHit w ptext l
  | [] => le_refl 0
  | kv :: rest => by
    unfold mfInnerHit
    split
    · norm_num
    · exact mfInnerHit_nonneg w ptext rest

/-- The credit-card query-relevance boost is non-negative. -/
theorem cc_query_relevance_nonneg (p : Product) (q : String) :
    0 ≤ CreditCardRanker.calculate_query_relevance p q := by
  simp only [CreditCardRanker.calculate_query_relevance]
  split
  · norm_num
  · refine le_min ?_ (by norm_num)
    refine le_trans ?_ (foldl_step_le _ ?_ _ _)
    · split <;> norm_num
    · intro a w
      refine foldl_step_le _ ?_ _ _
      intro a2 kv
      split
      · linarith
      · exact le_rfl

/-- The credit-card preference-alignment boost is non-negative. -/
theorem cc_pref_alignment_nonneg (p : Product) (u : Preferences) :
    0 ≤ CreditCardRanker.calculate_preference_alignment p u := by
  simp only [CreditCardRanker.calculate_preference_alignment]
  refine le_min ?_ (by norm_num)
  have h3 : (0 : ℚ) ≤ u.spending_categories.foldl
      (fun acc c => if pyIn (pyLower c)
        (pyLower (joinWith " " p.features)) then acc + 0.1 else acc) 0 := by
    refine foldl_step_le _ ?_ _ _
    intro a c
    split
    · linarith
    · exact le_rfl
  have h1 : (0 : ℚ) ≤
      (match u.max_annual_fee with
       | some _ =>
         if pyIn "no annual fee" (pyLower (joinWith " " p.features)) then 0.4
         else if pyIn "annual fee" (pyLower (joinWith " " p.features)) then 0.2
         else 0
       | none => 0) := by
    rcases u.max_annual_fee with _ | f
    · exact le_rfl
    · split_ifs <;> norm_num
  have h2 : (0 : ℚ) ≤
      (if (u.income_range.getD "").isEmpty then 0
       else if u.income_range.getD "" == "premium" &&
          ["premium", "privilege", "signature"].any
            (fun w => pyIn w (pyLower p.name)) then 0.3
       else if u.income_range.getD "" == "mid" &&
          ["select", "classic"].any (fun w => pyIn w (pyLower p.name)) then 0.3
       else if u.income_range.getD "" == "entry" &&
          ["student", "basic", "starter"].any
            (fun w => pyIn w (pyLower p.name)) then 0.3
       else 0 : ℚ) := by
    split <;> norm_num
    split <;> norm_num
    split <;> norm_num
    split <;> norm_num
  linarith

/-- A left fold whose step never decreases the accumulator on the list's
own elements is bounded below by its starting value. -/
theorem foldl_step_le_mem {α : Type} :
    ∀ (l : List α) (f : ℚ → α → ℚ), (∀ a x, x ∈ l → a ≤ f a x) →
      ∀ a, a ≤ List.foldl f a l
  | [], _, _, a => le_refl a
  | x :: xs, f, h, a =>
    le_trans (h a x (List.mem_cons_self x xs))
      (foldl_step_le_mem xs f (fun a y hy => h a y (List.mem_cons_of_mem x hy)) (f a x))

/-- The credit-card category-optimization boost is non-negative. -/
theorem cc_category_opt_nonneg (p : Product) (u : Preferences) :
    0 ≤ CreditCardRanker.calculate_category_optimization p u := by
  simp only [CreditCardRanker.calculate_category_optimization]
  refine le_min ?_ (by norm_num)
  refine foldl_step_le_mem _ _ ?_ _
  intro a kv hkv
  have hb : (0 : ℚ) ≤ kv.2 := by
    fin_cases hkv <;> norm_num
  split
  · linarith
  · exact le_rfl

/-- The fixed-deposit tenure-alignment boost is non-negative. -/
theorem fd_tenure_nonneg (p : Product) (u : Preferences) :
    0 ≤ FixedDepositRanker.calculate_tenure_alignment p u := by
  simp only [FixedDepositRanker.calculate_tenure_alignment]
  split
  · norm_num
  · refine le_min ?_ (by norm_num)
    have h1 : (0 : ℚ) ≤
        (match fdTenureKeywords.find? (fun kv => kv.1 == u.investment_tenure.getD "") with
         | some kv =>
           if kv.2.any (fun k => pyIn k
             (pyLower (p.name ++ " " ++ joinWith " " p.features))) then 0.5 else 0
         | none => 0) := by
      split
      · split <;> norm_num
      · exact le_rfl
    have h2 : (0 : ℚ) ≤
        (if ["flexible", "auto renewal", "premature withdrawal"].any
            (fun t => pyIn t (pyLower (p.name ++ " " ++ joinWith " " p.features)))
         then 0.3 else 0 : ℚ) := by
      split <;> norm_num
    linarith

/-- The fixed-deposit amount-alignment boost is non-negative. -/
theorem fd_amount_nonneg (p : Product) (u : Preferences) :
    0 ≤ FixedDepositRanker.calculate_amount_alignment p u := by
  simp only [FixedDepositRanker.calculate_amount_alignment]
  split
  · exact le_rfl
  · split
    · exact le_rfl
    · refine le_min ?_ (by norm_num)
      split_ifs <;> norm_num

/-- The fixed-deposit senior-citizen boost is non-negative. -/
theorem fd_senior_nonneg (p : Product) (u : Preferences) :
    0 ≤ FixedDepositRanker.calculate_senior_citizen_boost p u := by
  simp only [FixedDepositRanker.calculate_senior_citizen_boost]
  split
  · norm_num
  · refine le_min ?_ (by norm_num)
    split <;> norm_num

/-- The fixed-deposit query-relevance boost is non-negative. -/
theorem fd_query_relevance_nonneg (p : Product) (q : String) :
    0 ≤ FixedDepositRanker.calculate_query_relevance p q := by
  simp only [FixedDepositRanker.calculate_query_relevance]
  split
  · norm_num
  · refine le_min ?_ (by norm_num)
    have h1 : (0 : ℚ) ≤ (pySplitWs (pyLower q)).foldl
        (fun acc w => acc + fdInnerHit w
          (pyRemoveChar (pyLower (p.name ++ " " ++ joinWith " " p.features)) ' ')
          fdQueryKeywords) 0 := by
      refine foldl_step_le _ ?_ _ _
      intro a w
      have := fdInnerHit_nonneg w
        (pyRemoveChar (pyLower (p.name ++ " " ++ joinWith " " p.features)) ' ')
        fdQueryKeywords
      linarith
    have h2 : (0 : ℚ) ≤
        (if (pySplitWs (pyLower q)).any (fun w => pyIn w (pyLower p.name))
         then 0.3 else 0 : ℚ) := by
      split <;> norm_num
    linarith

/-- The fixed-deposit safety boost is non-negative. -/
theorem fd_safety_nonneg (p : Product) :
    0 ≤ FixedDepositRanker.calculate_safety_boost p := by
  simp only [FixedDepositRanker.calculate_safety_boost]
  refine le_min ?_ (by norm_num)
  split_ifs <;> norm_num

/-- The mutual-fund horizon boost is non-negative (floored at zero). -/
theorem mf_horizon_nonneg (p : Product) (u : Preferences) :
    0 ≤ MutualFundRanker.calculate_horizon_optimization p u := by
  simp only [MutualFundRanker.calculate_horizon_optimization]
  split
  · norm_num
  · exact le_max_right _ 0

/-- The mutual-fund query-relevance boost is non-negative. -/
theorem mf_query_relevance_nonneg (p : Product) (q : String) :
    0 ≤ MutualFundRanker.calculate_query_relevance p q := by
  simp only [MutualFundRanker.calculate_query_relevance]
  split
  · norm_num
  · refine le_min ?_ (by norm_num)
    have h1 : (0 : ℚ) ≤ (pySplitWs (pyLower q)).foldl
        (fun acc w => acc + mfInnerHit w
          (pyLower (p.name ++ " " ++ joinWith " " p.features)) mfQueryKeywords) 0 := by
      refine foldl_step_le _ ?_ _ _
      intro a w
      have := mfInnerHit_nonneg w
        (pyLower (p.name ++ " " ++ joinWith " " p.features)) mfQueryKeywords
      linarith
    have h2 : (0 : ℚ) ≤
        (if (pySplitWs (pyLower q)).any (fun w => pyIn w (pyLower p.name))
         then 0.3 else 0 : ℚ) := by
      split <;> norm_num
    linarith

/-- The mutual-fund SIP boost is non-negative (floored at zero). -/
theorem mf_sip_nonneg (p : Product) (u : Preferences) :
    0 ≤ MutualFundRanker.calculate_sip_suitability p u := by
  simp only [MutualFundRanker.calculate_sip_suitability]
  split
  · norm_num
  · exact le_max_right _ 0

/-- The credit-card enhanced score keeps the base score as a lower bound
and one hundred as an upper bound, for a base score at most one hundred. -/
theorem cc_enhanced_bounds (p : ScoredProduct) (q : String) (u : Preferences)
    (h : p.score ≤ 100) :
    p.score ≤ CreditCardRanker.calculate_enhanced_score p q u ∧
      CreditCardRanker.calculate_enhanced_score p q u ≤ 100 := by
  simp only [CreditCardRanker.calculate_enhanced_score]
  refine ⟨le_min ?_ h, min_le_right _ _⟩
  have h1 := cc_query_relevance_nonneg p.product q
  have h2 := cc_pref_alignment_nonneg p.product u
  have h3 := cc_category_opt_nonneg p.product u
  linarith

/-- The fixed-deposit enhanced score keeps the base score as a lower
bound and one hundred as an upper bound, for a base score at most one
hundred. -/
theorem fd_enhanced_bounds (p : ScoredProduct) (q : String) (u : Preferences)
    (h : p.score ≤ 100) :
    p.score ≤ FixedDepositRanker.calculate_enhanced_score p q u ∧
      FixedDepositRanker.calculate_enhanced_score p q u ≤ 100 := by
  simp only [FixedDepositRanker.calculate_enhanced_score]
  refine ⟨le_min ?_ h, min_le_right _ _⟩
  have h1 := fd_tenure_nonneg p.product u
  have h2 := fd_amount_nonneg p.product u
  have h3 := fd_senior_nonneg p.product u
  have h4 := fd_query_relevance_nonneg p.product q
  have h5 := fd_safety_nonneg p.product
  linarith

/-- When the mutual-fund enhanced score returns a value, that value
keeps the base score as a lower bound and one hundred as an upper bound,
for a base score at most one hundred. -/
theorem mf_enhanced_ok_bounds (p : ScoredProduct) (q : String)
    (u : Preferences) (v : ℚ)
    (hok : MutualFundRanker.calculate_enhanced_score p q u = .ok v)
    (h : p.score ≤ 100) : p.score ≤ v ∧ v ≤ 100 := by
  simp only [MutualFundRanker.calculate_enhanced_score,
    MutualFundRanker.calculate_goal_alignment] at hok
  by_cases hg : (pyLower (u.investment_goal.getD "")).isEmpty
  · rw [if_pos hg] at hok
    simp only [Except.bind, bind] at hok
    have hv : min (p.score + 0 * 4 +
        MutualFundRanker.calculate_horizon_optimization p.product u * 3 +
        MutualFundRanker.calculate_query_relevance p.product q * 2 +
        MutualFundRanker.calculate_sip_suitability p.product u * 1) 100 = v := by
      exact Except.ok.inj hok
    constructor
    · rw [← hv]
      refine le_min ?_ h
      have h1 := mf_horizon_nonneg p.product u
      have h2 := mf_query_relevance_nonneg p.product q
      have h3 := mf_sip_nonneg p.product u
      linarith
    · rw [← hv]
      exact min_le_right _ _
  · rw [if_neg hg] at hok
    exact absurd hok (by simp [Except.bind, bind])

/-- Credit-card base scores stay within the bounds when the cashback
rate is non-negative where present. -/
theorem cc_score_bounds (p : CreditCardInfo) (u : Preferences)
    (h : p.nonnegAttrs) :
    0 ≤ CreditCardProcessor.calculate_score p u ∧
      CreditCardProcessor.calculate_score p u ≤ 100 := by
  simp only [CreditCardProcessor.calculate_score]
  refine ⟨le_min (add_nonneg (add_nonneg (add_nonneg (add_nonneg ?_ ?_) ?_) ?_) ?_)
    (by norm_num), min_le_right _ _⟩
  · cases hcb : p.cashback_rate with
    | none => simp [truthyQ]
    | some r =>
      simp only [truthyQ, Option.getD_some]
      split
      · exact le_min (mul_nonneg (h r hcb) (by norm_num)) (by norm_num)
      · exact le_rfl
  · cases p.annual_fee with
    | none => norm_num
    | some f =>
      simp only []
      split_ifs <;> norm_num
  · exact le_min (by split_ifs <;> norm_num) (by norm_num)
  · exact le_min (by positivity) (by norm_num)
  · split <;> norm_num

/-- Fixed-deposit base scores stay within the bounds when the maximum
interest rate is non-negative where present. -/
theorem fd_score_bounds (p : FixedDepositInfo) (u : Preferences)
    (h : p.nonnegAttrs) :
    0 ≤ FixedDepositProcessor.calculate_score p u ∧
      FixedDepositProcessor.calculate_score p u ≤ 100 := by
  simp only [FixedDepositProcessor.calculate_score]
  refine ⟨le_min (add_nonneg (add_nonneg (add_nonneg ?_ ?_) ?_) ?_)
    (by norm_num), min_le_right _ _⟩
  · cases hm : p.interest_rate_max with
    | none => simp [truthyQ]
    | some m =>
      simp only [truthyQ, Option.getD_some]
      split
      · exact le_min (mul_nonneg (h m hm) (by norm_num)) (by norm_num)
      · exact le_rfl
  · split_ifs <;> norm_num
  · split_ifs <;> norm_num
  · split <;> norm_num

/-- The mutual-fund performance score is non-negative when the returns
are non-negative where present, and it never exceeds fifty. -/
theorem mf_perf_bounds (p : MutualFundInfo) (h : p.nonnegAttrs) :
    0 ≤ MutualFundProcessor.calculate_performance_score p ∧
      MutualFundProcessor.calculate_performance_score p ≤ 50 := by
  obtain ⟨h1, h3, h5⟩ := h
  simp only [MutualFundProcessor.calculate_performance_score]
  refine ⟨le_min ?_ (by norm_num), min_le_right _ _⟩
  cases hr5 : p.returns_5y with
  | some r => exact le_min (mul_nonneg (h5 r hr5) (by norm_num)) (by norm_num)
  | none =>
    cases hr3 : p.returns_3y with
    | some r => exact le_min (mul_nonneg (h3 r hr3) (by norm_num)) (by norm_num)
    | none =>
      cases hr1 : p.returns_1y with
      | some r => exact le_min (h1 r hr1) (by norm_num)
      | none => exact le_rfl

/-- The mutual-fund rating score is non-negative. -/
theorem mf_rating_nonneg (rating : ℤ) :
    0 ≤ MutualFundProcessor.calculate_rating_score rating := by
  simp only [MutualFundProcessor.calculate_rating_score]
  split
  · exact le_rfl
  · rename_i hneg
    have hr : (0 : ℚ) ≤ (rating : ℚ) := by
      exact_mod_cast le_of_lt (lt_of_not_ge hneg)
    positivity

/-- The mutual-fund risk score lies between five and twenty. -/
theorem mf_risk_bounds (risk_level : String) (u : Preferences) :
    5 ≤ MutualFundProcessor.calculate_risk_score risk_level u ∧
      MutualFundProcessor.calculate_risk_score risk_level u ≤ 20 := by
  simp only [MutualFundProcessor.calculate_risk_score]
  split_ifs <;> norm_num

/-- The mutual-fund expense score lies between two and ten. -/
theorem mf_expense_bounds (e : Option ℚ) :
    2 ≤ MutualFundProcessor.calculate_expense_score e ∧
      MutualFundProcessor.calculate_expense_score e ≤ 10 := by
  cases e with
  | none =>
    exact ⟨by norm_num [MutualFundProcessor.calculate_expense_score],
      by norm_num [MutualFundProcessor.calculate_expense_score]⟩
  | some v =>
    simp only [MutualFundProcessor.calculate_expense_score]
    split_ifs <;> norm_num

/-- The mutual-fund stability score is non-negative. -/
theorem mf_stability_nonneg (p : MutualFundInfo) :
    0 ≤ MutualFundProcessor.calculate_stability_score p := by
  simp only [MutualFundProcessor.calculate_stability_score]
  refine add_nonneg (add_nonneg ?_ ?_) ?_
  · cases p.aum with
    | none => exact le_rfl
    | some a =>
      simp only []
      split_ifs <;> norm_num
  · split <;> norm_num
  · split <;> norm_num

/-- Mutual-fund base scores stay within the bounds when the returns are
non-negative where present. -/
theorem mf_score_bounds (p : MutualFundInfo) (u : Preferences)
    (h : p.nonnegAttrs) :
    0 ≤ MutualFundProcessor.calculate_score p u ∧
      MutualFundProcessor.calculate_score p u ≤ 100 := by
  simp only [MutualFundProcessor.calculate_score]
  refine ⟨le_min ?_ (by norm_num), min_le_right _ _⟩
  have hp := (mf_perf_bounds p h).1
  have hr := mf_rating_nonneg p.rating
  have hk := (mf_risk_bounds p.risk_level u).1
  have he := (mf_expense_bounds p.expense_rate).1
  have hs := mf_stability_nonneg p
  linarith

/-- Elements of the element-wise loop's output come from applying the
step to elements of the input. -/
theorem exceptMapList_ok_mem_rev {α β : Type} (f : α → Except PyErr β) :
    ∀ (l : List α) (es : List β), exceptMapList f l = .ok es →
      ∀ b ∈ es, ∃ a ∈ l, f a = .ok b := by
  intro l
  induction l with
  | nil =>
    intro es h b hb
    simp only [exceptMapList] at h
    cases h
    cases hb
  | cons x xs ih =>
    intro es h b hb
    simp only [exceptMapList] at h
    cases hfx : f x with
    | error e => rw [hfx] at h; cases h
    | ok y =>
      rw [hfx] at h
      cases hrec : exceptMapList f xs with
      | error e => rw [hrec] at h; cases h
      | ok ys =>
        rw [hrec] at h
        simp only [Except.bind, bind] at h
        cases h
        rcases List.mem_cons.mp hb with rfl | hmem
        · exact ⟨x, List.mem_cons_self x xs, hfx⟩
        · obtain ⟨a, ha, hfa⟩ := ih ys hrec b hmem
          exact ⟨a, List.mem_cons_of_mem x ha, hfa⟩

/-- Stable insertion produces a permutation of consing the element. -/
theorem insDesc_perm (x : ScoredProduct) :
    ∀ l, (insDesc x l).Perm (x :: l)
  | [] => List.Perm.refl _
  | y :: ys => by
    simp only [insDesc]
    split
    · exact ((insDesc_perm x ys).cons y).trans (List.Perm.swap x y ys)
    · exact List.Perm.refl _

/-- The stable descending sort is a permutation of its input. -/
theorem sortByScoreDesc_perm : ∀ l, (sortByScoreDesc l).Perm l
  | [] => List.Perm.refl _
  | x :: xs =>
    (insDesc_perm x (sortByScoreDesc xs)).trans ((sortByScoreDesc_perm xs).cons x)

/-- The stable descending sort preserves length. -/
theorem sortByScoreDesc_length (l : List ScoredProduct) :
    (sortByScoreDesc l).length = l.length :=
  (sortByScoreDesc_perm l).length_eq

/-- Every element of the credit-card ranked output is the enhancement of
an input element. -/
theorem mem_rank_cc {ps : List ScoredProduct} {q : String} {u : Preferences}
    {sp' : ScoredProduct} (h : sp' ∈ CreditCardRanker.rank_products ps q u) :
    ∃ sp ∈ ps, sp' = CreditCardRanker.enhance q u sp := by
  simp only [CreditCardRanker.rank_products] at h
  split at h
  · cases h
  · have hmem : sp' ∈ ps.map (CreditCardRanker.enhance q u) :=
      (sortByScoreDesc_perm (ps.map (CreditCardRanker.enhance q u))).mem_iff.mp h
    obtain ⟨sp, hsp, heq⟩ := List.mem_map.mp hmem
    exact ⟨sp, hsp, heq.symm⟩

/-- Every element of the fixed-deposit ranked output is the enhancement
of an input element. -/
theorem mem_rank_fd {ps : List ScoredProduct} {q : String} {u : Preferences}
    {sp' : ScoredProduct} (h : sp' ∈ FixedDepositRanker.rank_products ps q u) :
    ∃ sp ∈ ps, sp' = FixedDepositRanker.enhance q u sp := by
  simp only [FixedDepositRanker.rank_products] at h
  split at h
  · cases h
  · have hmem : sp' ∈ ps.map (FixedDepositRanker.enhance q u) :=
      (sortByScoreDesc_perm (ps.map (FixedDepositRanker.enhance q u))).mem_iff.mp h
    obtain ⟨sp, hsp, heq⟩ := List.mem_map.mp hmem
    exact ⟨sp, hsp, heq.symm⟩

/-- Every element of a successful mutual-fund ranked output is a
successful enhancement of an input element. -/
theorem mem_rank_mf {ps : List ScoredProduct} {q : String} {u : Preferences}
    {out : List ScoredProduct} {sp' : ScoredProduct}
    (hok : MutualFundRanker.rank_products ps q u = .ok out) (h : sp' ∈ out) :
    ∃ sp ∈ ps, MutualFundRanker.enhance q u sp = .ok sp' := by
  simp only [MutualFundRanker.rank_products] at hok
  split at hok
  · cases hok
    cases h
  · cases hm : exceptMapList (MutualFundRanker.enhance q u) ps with
    | error e => rw [hm] at hok; cases hok
    | ok es =>
      rw [hm] at hok
      simp only [Except.bind, bind] at hok
      cases hok
      have : sp' ∈ es := (sortByScoreDesc_perm es).mem_iff.mp h
      exact exceptMapList_ok_mem_rev _ ps es hm sp' this

/-- A successful mutual-fund enhancement records the enhanced score and
keeps the product. -/
theorem mf_enhance_ok {q : String} {u : Preferences} {sp sp' : ScoredProduct}
    (h : MutualFundRanker.enhance q u sp = .ok sp') :
    MutualFundRanker.calculate_enhanced_score sp q u = .ok sp'.score ∧
      sp'.product = sp.product := by
  simp only [MutualFundRanker.enhance] at h
  cases he : MutualFundRanker.calculate_enhanced_score sp q u with
  | error e => rw [he] at h; cases h
  | ok v =>
    rw [he] at h
    simp only [Except.bind, bind] at h
    cases h
    exact ⟨rfl, rfl⟩

/-- C1 counterexample: calculate_score leaves the claimed interval,
returning a negative value for a product with a negative cashback rate;
the cashback component is a min with no lower floor. -/
theorem c1_counterexample :
    CreditCardProcessor.calculate_score ccNegSample {} < 0 := by
  have hbank : (reputableBanksCC.any
      (fun b => pyIn b (pyLower ccNegSample.bank))) = false := by decide
  have hbank2 : ¬ ∃ x ∈ reputableBanksCC, pyIn x (pyLower "") = true := by decide
  simp only [CreditCardProcessor.calculate_score, ccNegSample, hbank, truthyQ,
    truthyS, Option.getD_some, List.length_nil, bne_iff_ne, min_def]
  norm_num [hbank2]

/-- C1 (amended): for every product of the three implemented categories
whose scoring-relevant optional numeric attributes are non-negative
where present, and every preference map, calculate_score returns a value
in [0, 100]; and every ScoredProduct emitted by a ranker has a score in
[0, 100] whenever the input scores lie in [0, 100] (for the mutual-fund
ranker, whenever its ranking returns at all). -/
theorem c1_theorem :
    (∀ (p : CreditCardInfo) (u : Preferences), p.nonnegAttrs →
      0 ≤ CreditCardProcessor.calculate_score p u ∧
        CreditCardProcessor.calculate_score p u ≤ 100) ∧
    (∀ (p : FixedDepositInfo) (u : Preferences), p.nonnegAttrs →
      0 ≤ FixedDepositProcessor.calculate_score p u ∧
        FixedDepositProcessor.calculate_score p u ≤ 100) ∧
    (∀ (p : MutualFundInfo) (u : Preferences), p.nonnegAttrs →
      0 ≤ MutualFundProcessor.calculate_score p u ∧
        MutualFundProcessor.calculate_score p u ≤ 100) ∧
    (∀ (ps : List ScoredProduct) (q : String) (u : Preferences),
      (∀ sp ∈ ps, 0 ≤ sp.score ∧ sp.score ≤ 100) →
      ∀ sp' ∈ CreditCardRanker.rank_products ps q u,
        0 ≤ sp'.score ∧ sp'.score ≤ 100) ∧
    (∀ (ps : List ScoredProduct) (q : String) (u : Preferences),
      (∀ sp ∈ ps, 0 ≤ sp.score ∧ sp.score ≤ 100) →
      ∀ sp' ∈ FixedDepositRanker.rank_products ps q u,
        0 ≤ sp'.score ∧ sp'.score ≤ 100) ∧
    (∀ (ps : List ScoredProduct) (q : String) (u : Preferences)
        (out : List ScoredProduct),
      MutualFundRanker.rank_products ps q u = .ok out →
      (∀ sp ∈ ps, 0 ≤ sp.score ∧ sp.score ≤ 100) →
      ∀ sp' ∈ out, 0 ≤ sp'.score ∧ sp'.score ≤ 100) := by
  refine ⟨cc_score_bounds, fd_score_bounds, mf_score_bounds, ?_, ?_, ?_⟩
  · intro ps q u hin sp' hmem
    obtain ⟨sp, hsp, rfl⟩ := mem_rank_cc hmem
    have hb := cc_enhanced_bounds sp q u (hin sp hsp).2
    have hsc : (CreditCardRanker.enhance q u sp).score =
        CreditCardRanker.calculate_enhanced_score sp q u := rfl
    rw [hsc]
    exact ⟨le_trans (hin sp hsp).1 hb.1, hb.2⟩
  · intro ps q u hin sp' hmem
    obtain ⟨sp, hsp, rfl⟩ := mem_rank_fd hmem
    have hb := fd_enhanced_bounds sp q u (hin sp hsp).2
    have hsc : (FixedDepositRanker.enhance q u sp).score =
        FixedDepositRanker.calculate_enhanced_score sp q u := rfl
    rw [hsc]
    exact ⟨le_trans (hin sp hsp).1 hb.1, hb.2⟩
  · intro ps q u out hok hin sp' hmem
    obtain ⟨sp, hsp, henh⟩ := mem_rank_mf hok hmem
    obtain ⟨hes, _⟩ := mf_enhance_ok henh
    have hb := mf_enhanced_ok_bounds sp q u sp'.score hes (hin sp hsp).2
    exact ⟨le_trans (hin sp hsp).1 hb.1, hb.2⟩

/-- Witness for C1: the amended theorem applied at concrete products,
preference maps, and ranked lists. -/
theorem c1_witness :
    (0 ≤ CreditCardProcessor.calculate_score ccSampleW {} ∧
      CreditCardProcessor.calculate_score ccSampleW {} ≤ 100) ∧
    (0 ≤ FixedDepositProcessor.calculate_score fdSampleW {} ∧
      FixedDepositProcessor.calculate_score fdSampleW {} ≤ 100) ∧
    (0 ≤ MutualFundProcessor.calculate_score mfSampleW {} ∧
      MutualFundProcessor.calculate_score mfSampleW {} ≤ 100) ∧
    (0 ≤ ccEnhW.score ∧ ccEnhW.score ≤ 100) ∧
    (0 ≤ fdEnhW.score ∧ fdEnhW.score ≤ 100) ∧
    (0 ≤ mfEnhW.score ∧ mfEnhW.score ≤ 100) := by
  have hin : ∀ sp ∈ [spccW], 0 ≤ sp.score ∧ sp.score ≤ 100 := by
    intro sp hsp
    rw [List.mem_singleton] at hsp
    subst hsp
    exact ⟨by norm_num [spccW], by norm_num [spccW]⟩
  have hinf : ∀ sp ∈ [spfdW], 0 ≤ sp.score ∧ sp.score ≤ 100 := by
    intro sp hsp
    rw [List.mem_singleton] at hsp
    subst hsp
    exact ⟨by norm_num [spfdW], by norm_num [spfdW]⟩
  have hinm : ∀ sp ∈ [spmfW], 0 ≤ sp.score ∧ sp.score ≤ 100 := by
    intro sp hsp
    rw [List.mem_singleton] at hsp
    subst hsp
    exact ⟨by norm_num [spmfW], by norm_num [spmfW]⟩
  have hmemcc : ccEnhW ∈ CreditCardRanker.rank_products [spccW] "" {} := by
    rw [show CreditCardRanker.rank_products [spccW] "" {} = [ccEnhW] from rfl]
    exact List.mem_singleton_self _
  have hmemfd : fdEnhW ∈ FixedDepositRanker.rank_products [spfdW] "" {} := by
    rw [show FixedDepositRanker.rank_products [spfdW] "" {} = [fdEnhW] from rfl]
    exact List.mem_singleton_self _
  have hok : MutualFundRanker.rank_products [spmfW] "" {} = .ok mfOutW := rfl
  have hmemmf : mfEnhW ∈ mfOutW := by
    rw [show mfOutW = [mfEnhW] from rfl]
    exact List.mem_singleton_self _
  refine ⟨c1_theorem.1 ccSampleW {} ?_, c1_theorem.2.1 fdSampleW {} ?_,
    c1_theorem.2.2.1 mfSampleW {} ?_,
    c1_theorem.2.2.2.1 [spccW] "" {} hin ccEnhW hmemcc,
    c1_theorem.2.2.2.2.1 [spfdW] "" {} hinf fdEnhW hmemfd,
    c1_theorem.2.2.2.2.2 [spmfW] "" {} mfOutW hok hinm mfEnhW hmemmf⟩
  · intro r hr
    rw [show ccSampleW.cashback_rate = some 5 from rfl] at hr
    cases hr
    norm_num
  · intro r hr
    rw [show fdSampleW.interest_rate_max = some 7 from rfl] at hr
    cases hr
    norm_num
  · refine ⟨?_, ?_, ?_⟩ <;> intro r hr
    · rw [show mfSampleW.returns_1y = none from rfl] at hr
      cases hr
    · rw [show mfSampleW.returns_3y = none from rfl] at hr
      cases hr
    · rw [show mfSampleW.returns_5y = some 12 from rfl] at hr
      cases hr
      norm_num

/-- C9: every ranker's enhanced score is at least the product's base
score (all boost terms are non-negative and the clamp cannot drop below
a base score at most one hundred); for the mutual-fund ranker this holds
whenever the enhanced-score computation returns. -/
theorem c9_theorem :
    (∀ (p : ScoredProduct) (q : String) (u : Preferences), p.score ≤ 100 →
      p.score ≤ CreditCardRanker.calculate_enhanced_score p q u) ∧
    (∀ (p : ScoredProduct) (q : String) (u : Preferences), p.score ≤ 100 →
      p.score ≤ FixedDepositRanker.calculate_enhanced_score p q u) ∧
    (∀ (p : ScoredProduct) (q : String) (u : Preferences) (v : ℚ),
      MutualFundRanker.calculate_enhanced_score p q u = .ok v →
      p.score ≤ 100 → p.score ≤ v) :=
  ⟨fun p q u h => (cc_enhanced_bounds p q u h).1,
   fun p q u h => (fd_enhanced_bounds p q u h).1,
   fun p q u v hok h => (mf_enhanced_ok_bounds p q u v hok h).1⟩

/-- Witness for C9: the theorem applied at the concrete scored samples. -/
theorem c9_witness :
    spccW.score ≤ CreditCardRanker.calculate_enhanced_score spccW "" {} ∧
    spfdW.score ≤ FixedDepositRanker.calculate_enhanced_score spfdW "" {} ∧
    spmfW.score ≤ mfEnhValW :=
  ⟨c9_theorem.1 spccW "" {} (by norm_num [spccW]),
   c9_theorem.2.1 spfdW "" {} (by norm_num [spfdW]),
   c9_theorem.2.2 spmfW "" {} mfEnhValW rfl (by norm_num [spmfW])⟩

/-- C7: the mutual-fund risk-alignment component reaches its maximum of
twenty exactly when the product risk text and the user risk-tolerance
text (defaulting to moderate risk when absent, and to ordinal three when
unmapped) map to the same ordinal in the fixed one-to-six mapping. -/
theorem c7_theorem (risk_level : String) (prefs : Preferences) :
    MutualFundProcessor.calculate_risk_score risk_level prefs = 20 ↔
      riskOrdinal (pyLower risk_level) =
        riskOrdinal (pyLower (prefs.risk_tolerance.getD "moderate risk")) := by
  simp only [MutualFundProcessor.calculate_risk_score]
  set a := riskOrdinal (pyLower risk_level) with ha
  set b := riskOrdinal (pyLower (prefs.risk_tolerance.getD "moderate risk")) with hb
  have habs : (|a - b| == 0) = true ↔ a = b := by
    simp [beq_iff_eq, abs_eq_zero, sub_eq_zero]
  split_ifs with h1 h2 h3
  · exact iff_of_true rfl (habs.mp h1)
  · exact iff_of_false (by norm_num) fun h => h1 (habs.mpr h)
  · exact iff_of_false (by norm_num) fun h => h1 (habs.mpr h)
  · exact iff_of_false (by norm_num) fun h => h1 (habs.mpr h)

/-- C6 counterexample: with interest_rate_max present but zero, moving
the senior-citizen rate from a value at most the maximum to a value
above it leaves the score unchanged, because the zero maximum is falsy
and the senior branch never fires. -/
theorem c6_counterexample :
    ¬ (FixedDepositProcessor.calculate_score fdZeroA {} <
        FixedDepositProcessor.calculate_score fdZeroB {}) := by
  have hb : ¬ ∃ x ∈ reputableBanksFD, pyIn x (pyLower "B") = true := by decide
  simp only [FixedDepositProcessor.calculate_score, fdZeroA, fdZeroB, truthyQ,
    truthyZ, bne_iff_ne, min_def]
  norm_num [hb]

/-- C6 (amended): with a positive maximum interest rate present, the
fixed-deposit score strictly increases when the senior-citizen rate
moves from a value at most the maximum to a value above it, every other
attribute held fixed (the zero-or-negative maximum cases, where the
truthiness guard disables the senior branch, are excluded). -/
theorem c6_theorem (p : FixedDepositInfo) (u : Preferences) (m s₁ s₂ : ℚ)
    (hm : p.interest_rate_max = some m) (hmpos : 0 < m)
    (h1 : s₁ ≤ m) (h2 : m < s₂) :
    FixedDepositProcessor.calculate_score
        { p with senior_citizen_rate := some s₁ } u <
      FixedDepositProcessor.calculate_score
        { p with senior_citizen_rate := some s₂ } u := by
  obtain ⟨pid, pname, pdesc, pcat, pfeat, pbank, pmin, pmax, ptf, ptt, psen⟩ := p
  simp only at hm
  subst hm
  simp only [FixedDepositProcessor.calculate_score]
  have hmne : truthyQ (some m) = true := by
    simp [truthyQ, bne_iff_ne]
    exact hmpos.ne'
  have hs2 : truthyQ (some s₂) = true := by
    simp [truthyQ, bne_iff_ne]
    exact (hmpos.trans h2).ne'
  simp only [hmne, hs2, Option.getD_some, Bool.and_true, Bool.true_and, if_true,
    Bool.and_self]
  set R : ℚ := min (m * 8) 50 with hR
  set T : ℚ := (if truthyZ ptf && truthyZ ptt then
      if 1000 < ptt.getD 0 - ptf.getD 0 then 20
      else if 365 < ptt.getD 0 - ptf.getD 0 then 15 else 10
    else 0 : ℚ) with hT
  set B : ℚ := (if reputableBanksFD.any (fun b => pyIn b (pyLower pbank)) then 10
    else 5 : ℚ) with hB
  have hRb : R ≤ 50 := min_le_right _ _
  have hTb : 0 ≤ T ∧ T ≤ 20 := by
    rw [hT]
    constructor <;> split_ifs <;> norm_num
  have hBb : 0 ≤ B ∧ B ≤ 10 := by
    rw [hB]
    constructor <;> split_ifs <;> norm_num
  have hS1 : (if truthyQ (some s₁) = true then (if m < s₁ then (20 : ℚ) else 10)
      else 0) ≤ 10 := by
    split_ifs with hx hy
    · exact absurd hy (not_lt.mpr h1)
    · exact le_rfl
    · norm_num
  have hS1lo : (0 : ℚ) ≤ (if truthyQ (some s₁) = true
      then (if m < s₁ then (20 : ℚ) else 10) else 0) := by
    split_ifs <;> norm_num
  rw [if_pos h2]
  have harg1 : R + (if truthyQ (some s₁) = true
      then (if m < s₁ then (20 : ℚ) else 10) else 0) + T + B ≤ 90 := by
    linarith [hTb.2, hBb.2]
  have harg2 : R + 20 + T + B ≤ 100 := by
    linarith [hTb.2, hBb.2]
  rw [min_eq_left (by linarith), min_eq_left harg2]
  linarith

/-- Witness for C6: the amended theorem applied at the concrete sample
with maximum rate seven and the senior rate moving from seven to eight. -/
theorem c6_witness :
    FixedDepositProcessor.calculate_score
        { fdSampleW with senior_citizen_rate := some 7 } {} <
      FixedDepositProcessor.calculate_score
        { fdSampleW with senior_citizen_rate := some 8 } {} :=
  c6_theorem fdSampleW {} 7 7 8 rfl (by norm_num) (by norm_num) (by norm_num)

/-- C4: processing a fixed-deposit record whose tenure field holds a
non-numeric string raises ValueError (the int conversion in the feature
extraction is unguarded), while the rate parser named by the same claim
does degrade an unparsable string to an absent value. -/
theorem c4_theorem :
    FixedDepositProcessor.process_product fdBadTenure = .error .valueErr ∧
      FixedDepositProcessor.parse_rate (Val.vs "abc") = none := ⟨rfl, rfl⟩

/-- C2: the mutual-fund ranker raises AttributeError on a nonempty
investment goal (the goal-alignment helper lowers the category enum),
instead of returning a ranked list of the input length. -/
theorem c2_theorem :
    MutualFundRanker.rank_products [spmfW] "growth funds"
        { investment_goal := some "retirement" } = .error .attrErr := rfl

/-- C3: total_found counts all scored candidates before the final cap,
so it is at least the emitted length and equals it exactly when it fits
under max_results. -/
theorem c3_theorem
    (load : ProductCategory → Option String → List RawRecord)
    (q : String) (cats : Option (List ProductCategory))
    (prefs : Preferences) (n : ℕ) :
    (FinancialProductManager.recommend_products load q cats prefs n).products.length ≤
      (FinancialProductManager.recommend_products load q cats prefs n).total_found ∧
    ((FinancialProductManager.recommend_products load q cats prefs n).total_found =
        (FinancialProductManager.recommend_products load q cats prefs n).products.length ↔
      (FinancialProductManager.recommend_products load q cats prefs n).total_found ≤ n) := by
  simp only [FinancialProductManager.recommend_products]
  rw [List.length_take, sortByScoreDesc_length]
  omega

/-- C8: the empty-category empty-query call returns the empty
recommendation with the fixed no-products reasoning carrying the literal
empty query. -/
theorem c8_theorem (load : ProductCategory → Option String → List RawRecord) :
    FinancialProductManager.recommend_products load "" (some []) {} 5 =
      { products := []
        total_found := 0
        query_processed := ""
        recommendations_reasoning :=
          "No products found matching ''. Try different search terms." } := rfl

/-- Splitting a successful monadic bind on Except. -/
theorem except_bind_ok {α β : Type} {x : Except PyErr α} {f : α → Except PyErr β}
    {b : β} (h : (x >>= f) = .ok b) : ∃ a, x = .ok a ∧ f a = .ok b := by
  cases x with
  | error e => exact absurd h (by simp [Bind.bind, Except.bind])
  | ok a => exact ⟨a, rfl, by simpa [Bind.bind, Except.bind] using h⟩

/-- A processed credit card carries the credit-card category. -/
theorem cc_process_category {raw : RawRecord} {p : CreditCardInfo}
    (h : CreditCardProcessor.process_product raw = .ok p) :
    p.category = .credit_cards := by
  simp only [CreditCardProcessor.process_product] at h
  obtain ⟨name, h1, h⟩ := except_bind_ok h
  obtain ⟨bank, h2, h⟩ := except_bind_ok h
  obtain ⟨desc, h3, h⟩ := except_bind_ok h
  obtain ⟨feats, h4, h⟩ := except_bind_ok h
  cases h
  rfl

/-- A processed fixed deposit carries the fixed-deposit category. -/
theorem fd_process_category {raw : RawRecord} {p : FixedDepositInfo}
    (h : FixedDepositProcessor.process_product raw = .ok p) :
    p.category = .fixed_deposits := by
  simp only [FixedDepositProcessor.process_product] at h
  obtain ⟨bank, h1, h⟩ := except_bind_ok h
  obtain ⟨feats, h2, h⟩ := except_bind_ok h
  split at h <;>
    · obtain ⟨tf, h3, h⟩ := except_bind_ok h
      split at h <;>
        · obtain ⟨tt, h4, h⟩ := except_bind_ok h
          cases h
          rfl

/-- A processed mutual fund carries the mutual-fund category. -/
theorem mf_process_category {raw : RawRecord} {p : MutualFundInfo}
    (h : MutualFundProcessor.process_product raw = .ok p) :
    p.category = .mutual_funds := by
  simp only [MutualFundProcessor.process_product] at h
  obtain ⟨name, h1, h⟩ := except_bind_ok h
  obtain ⟨risk, h2, h⟩ := except_bind_ok h
  obtain ⟨holdings, h3, h⟩ := except_bind_ok h
  cases h
  rfl

/-- A scored credit-card record wraps a credit-card product. -/
theorem ccScoreRecord_product {raw : RawRecord} {prefs : Preferences}
    {sp : ScoredProduct} (h : ccScoreRecord raw prefs = some sp) :
    sp.product.category = .credit_cards := by
  simp only [ccScoreRecord] at h
  cases hp : CreditCardProcessor.process_product raw with
  | error e => rw [hp] at h; cases h
  | ok p =>
    rw [hp] at h
    cases h
    exact cc_process_category hp

/-- A scored fixed-deposit record wraps a fixed-deposit product. -/
theorem fdScoreRecord_product {raw : RawRecord} {prefs : Preferences}
    {sp : ScoredProduct} (h : fdScoreRecord raw prefs = some sp) :
    sp.product.category = .fixed_deposits := by
  simp only [fdScoreRecord] at h
  cases hp : FixedDepositProcessor.process_product raw with
  | error e => rw [hp] at h; cases h
  | ok p =>
    rw [hp] at h
    cases h
    exact fd_process_category hp

/-- A scored mutual-fund record wraps a mutual-fund product. -/
theorem mfScoreRecord_product {raw : RawRecord} {prefs : Preferences}
    {sp : ScoredProduct} (h : mfScoreRecord raw prefs = some sp) :
    sp.product.category = .mutual_funds := by
  simp only [mfScoreRecord] at h
  cases hp : MutualFundProcessor.process_product raw with
  | error e => rw [hp] at h; cases h
  | ok p =>
    rw [hp] at h
    cases h
    exact mf_process_category hp

/-- Membership in a left fold that appends a block per element comes
from the start value or from one of the blocks. -/
theorem mem_foldl_append {α β : Type} (g : β → List α) :
    ∀ (cats : List β) (acc : List α) (x : α),
      x ∈ cats.foldl (fun a c => a ++ g c) acc → x ∈ acc ∨ ∃ c ∈ cats, x ∈ g c := by
  intro cats
  induction cats with
  | nil => intro acc x h; exact Or.inl h
  | cons c cs ih =>
    intro acc x h
    rcases ih (acc ++ g c) x h with hacc | ⟨c', hc', hx⟩
    · rcases List.mem_append.mp hacc with h1 | h2
      · exact Or.inl h1
      · exact Or.inr ⟨c, List.mem_cons_self c cs, h2⟩
    · exact Or.inr ⟨c', List.mem_cons_of_mem c hc', hx⟩

/-- Every element of the credit-card per-category pipeline output wraps
a credit-card product. -/
theorem mem_cc_pipeline {raws : List RawRecord} {q : String}
    {prefs : Preferences} {sp : ScoredProduct}
    (h : sp ∈ CreditCardRanker.rank_products
      (raws.filterMap (fun r => ccScoreRecord r prefs)) q prefs) :
    sp.product.category = .credit_cards := by
  obtain ⟨sp0, hsp0, rfl⟩ := mem_rank_cc h
  have hpres : (CreditCardRanker.enhance q prefs sp0).product = sp0.product := rfl
  rw [hpres]
  obtain ⟨r, hr, hsc⟩ := List.mem_filterMap.mp hsp0
  exact ccScoreRecord_product hsc

/-- Every element of the fixed-deposit per-category pipeline output
wraps a fixed-deposit product. -/
theorem mem_fd_pipeline {raws : List RawRecord} {q : String}
    {prefs : Preferences} {sp : ScoredProduct}
    (h : sp ∈ FixedDepositRanker.rank_products
      (raws.filterMap (fun r => fdScoreRecord r prefs)) q prefs) :
    sp.product.category = .fixed_deposits := by
  obtain ⟨sp0, hsp0, rfl⟩ := mem_rank_fd h
  have hpres : (FixedDepositRanker.enhance q prefs sp0).product = sp0.product := rfl
  rw [hpres]
  obtain ⟨r, hr, hsc⟩ := List.mem_filterMap.mp hsp0
  exact fdScoreRecord_product hsc

/-- Every element of a successful mutual-fund per-category pipeline
output wraps a mutual-fund product. -/
theorem mem_mf_pipeline {raws : List RawRecord} {q : String}
    {prefs : Preferences} {out : List ScoredProduct} {sp : ScoredProduct}
    (hok : MutualFundRanker.rank_products
      (raws.filterMap (fun r => mfScoreRecord r prefs)) q prefs = .ok out)
    (h : sp ∈ out) : sp.product.category = .mutual_funds := by
  obtain ⟨sp0, hsp0, henh⟩ := mem_rank_mf hok h
  obtain ⟨-, hprod⟩ := mf_enhance_ok henh
  rw [hprod]
  obtain ⟨r, hr, hsc⟩ := List.mem_filterMap.mp hsp0
  exact mfScoreRecord_product hsc

/-- Every element of any per-category processing result (when that
category's processing succeeds) wraps a product of an implemented
category. -/
theorem mem_process_category_implemented {load : ProductCategory →
    Option String → List RawRecord} {c : ProductCategory} {q : String}
    {prefs : Preferences} {sp : ScoredProduct}
    (h : sp ∈ (FinancialProductManager.process_category load c q prefs).toOption.getD []) :
    sp.product.category.implemented = true := by
  cases c with
  | credit_cards =>
    simp only [FinancialProductManager.process_category, Except.toOption,
      Option.getD_some] at h
    rw [mem_cc_pipeline h]
    rfl
  | fixed_deposits =>
    simp only [FinancialProductManager.process_category, Except.toOption,
      Option.getD_some] at h
    rw [mem_fd_pipeline h]
    rfl
  | mutual_funds =>
    simp only [FinancialProductManager.process_category] at h
    cases hmf : MutualFundRanker.rank_products
        ((load .mutual_funds (prefs.sourceFilter .mutual_funds)).filterMap
          (fun r => mfScoreRecord r prefs)) q prefs with
    | error e => rw [hmf] at h; simp [Except.toOption] at h
    | ok out =>
      rw [hmf] at h
      simp only [Except.toOption, Option.getD_some] at h
      rw [mem_mf_pipeline hmf h]
      rfl
  | insurance => simp [FinancialProductManager.process_category, Except.toOption] at h
  | loans => simp [FinancialProductManager.process_category, Except.toOption] at h

/-- C10: with the categories unspecified the manager iterates all five
enumeration members; the unregistered insurance and loans categories
raise KeyError, which the per-category skip swallows, so the call equals
the call on the three implemented categories and every returned product
belongs to an implemented category. -/
theorem c10_theorem (load : ProductCategory → Option String → List RawRecord)
    (q : String) (prefs : Preferences) (n : ℕ) :
    FinancialProductManager.recommend_products load q none prefs n =
      FinancialProductManager.recommend_products load q
        (some [.credit_cards, .fixed_deposits, .mutual_funds]) prefs n ∧
    (FinancialProductManager.recommend_products load q none prefs n).products.all
      (fun sp => sp.product.category.implemented) = true := by
  refine ⟨rfl, ?_⟩
  rw [List.all_eq_true]
  intro sp hsp
  simp only [FinancialProductManager.recommend_products, Option.getD_none] at hsp
  have hfun : (fun (acc : List ScoredProduct) c =>
      match FinancialProductManager.process_category load c q prefs with
      | .ok l => acc ++ l
      | .error _ => acc) = fun acc c => acc ++
        (FinancialProductManager.process_category load c q prefs).toOption.getD [] := by
    funext acc c
    cases FinancialProductManager.process_category load c q prefs with
    | ok l => rfl
    | error e => simp [Except.toOption]
  rw [hfun] at hsp
  have hall : sp ∈ ProductCategory.all.foldl (fun acc c => acc ++
      (FinancialProductManager.process_category load c q prefs).toOption.getD []) [] :=
    (sortByScoreDesc_perm _).mem_iff.mp (List.take_subset _ _ hsp)
  rcases mem_foldl_append _ ProductCategory.all [] sp hall with hnil | ⟨c, -, hc⟩
  · cases hnil
  · exact mem_process_category_implemented hc

/-- C5 counterexample: the example record processes with the
fuel-surcharge waiver off — the description contains the word fuel but
not the phrases fuel surcharge or fuel waiver the extractor looks for —
against the claimed waiver flag. -/
theorem c5_counterexample :
    (CreditCardProcessor.process_product c5Record).toOption.map
      CreditCardInfo.fuel_surcharge_waiver = some false := by decide

/-- C5 (amended): the example record processes to the concrete product
with the waiver off and lounge access on, and its score with empty
preferences is exactly eighty-one (twenty-five fee, twenty-five
cashback, fifteen benefits, six features, ten bank) — at least eighty,
but not in the high eighties. -/
theorem c5_theorem :
    (CreditCardProcessor.process_product c5Record).toOption = some c5Info ∧
    c5Info.fuel_surcharge_waiver = false ∧
    c5Info.lounge_access = true ∧
    CreditCardProcessor.calculate_score c5Info {} = 81 ∧
    (80 : ℚ) ≤ CreditCardProcessor.calculate_score c5Info {} := by
  have hbank : ∃ x ∈ reputableBanksCC, pyIn x (pyLower "HDFC") = true := by decide
  have hde : c5Desc.isEmpty = false := by decide
  have hscore : CreditCardProcessor.calculate_score c5Info {} = 81 := by
    simp only [CreditCardProcessor.calculate_score, c5Info, truthyQ, truthyS,
      Option.getD_some, bne_iff_ne, min_def]
    norm_num [hbank, hde]
  exact ⟨by decide, rfl, rfl, hscore, by rw [hscore]; norm_num⟩
